import Mathlib

/-!
Shallow embedding of `plugins/modules/cloud/lxd/lxd_container.py`
(`LXDContainerManagement`): the reconciliation core that drives an LXD
instance toward a desired runtime state.

The control plane (LXD REST client) is modelled as an oracle environment
`Env`: the initial instance fetch, the outcome of every mutating request,
and the successive network-state fetches are inputs.  The per-run mutable
object state (`self.actions`, `self.diff`, `self.addresses`, plus the
trace of HTTP requests actually issued) is threaded explicitly as
`RunState`; an `LXDClientException` is the `Except.error` case carrying
the message together with the state accumulated so far, exactly as the
`except` clause of `run` sees it.
-/

namespace LXD

/-- LXD instance status, as reported in the fetched metadata
(`ANSIBLE_LXD_STATES` keys `Running`, `Stopped`, `Frozen`). -/
inductive Status where
  | running
  | stopped
  | frozen
deriving DecidableEq, Repr

/-- `ANSIBLE_LXD_STATES`: map of LXD statuses to the module state values. -/
def statusToState : Status → String
  | .running => "started"
  | .stopped => "stopped"
  | .frozen => "frozen"

/-- A JSON object of string keys and string values, as an association list
(the instance `config` map). -/
abbrev Dict := List (String × String)

/-- Python `d[k]` / `k in d` lookup. -/
def dictLookup : Dict → String → Option String
  | [], _ => none
  | kv :: rest, k => if kv.1 = k then some kv.2 else dictLookup rest k

/-- Python `k in d`. -/
def dictMem (d : Dict) (k : String) : Bool :=
  d.any (fun kv => decide (kv.1 = k))

/-- Python `d[k] = v`: replace the value of an existing key in place,
otherwise append the new binding. -/
def dictInsert (d : Dict) (k v : String) : Dict :=
  if dictMem d k then d.map (fun kv => if kv.1 = k then (k, v) else kv)
  else d ++ [(k, v)]

/-- Structural `startswith` on character lists. -/
def listStartsWith : List Char → List Char → Bool
  | _, [] => true
  | [], _ :: _ => false
  | c :: cs, d :: ds => c == d && listStartsWith cs ds

/-- Python `k.startswith(p)`. -/
def strStartsWith (k p : String) : Bool := listStartsWith k.data p.data

/-- The filter applied to the observed `config` map before comparison:
`if not k.startswith('volatile.')` (line 568). -/
def filterVolatile (d : Dict) : Dict :=
  d.filter (fun kv => !(strStartsWith kv.1 "volatile."))

/-- The loop `for k, v in self.config['config'].items(): body_json['config'][k] = v`
(lines 595-596): desired keys overwrite or extend the observed map. -/
def mergeConfig (old desired : Dict) : Dict :=
  desired.foldl (fun acc kv => dictInsert acc kv.1 kv.2) old

/-- The mutable instance attributes, `set(CONFIG_PARAMS) - set(CONFIG_CREATION_PARAMS)`
= {architecture, config, devices, ephemeral, profiles}.  `config` is a
string map compared per key; the other sections are compared by plain
equality, so their values stay opaque (`devices`/`profiles` as opaque
strings standing for their JSON values). -/
structure InstanceAttrs where
  architecture : String
  config : Dict
  devices : String
  ephemeral : Bool
  profiles : String
deriving DecidableEq, Repr

/-- The fetched instance metadata: runtime status plus the mutable sections. -/
structure Meta where
  status : Status
  attrs : InstanceAttrs
deriving DecidableEq, Repr

/-- Names of the non-creation config attributes iterated by
`_needs_to_apply_container_configs` and `_apply_container_configs`. -/
inductive MutableParam where
  | architecture
  | config
  | devices
  | ephemeral
  | profiles
deriving DecidableEq, Repr

def mutableParams : List MutableParam :=
  [.architecture, .config, .devices, .ephemeral, .profiles]

/-- `self.config` as built by `_build_config`: each Ansible parameter is
included only when it was supplied (not `None`).  Creation-only params
(`source`, `type`) are never diffed and are omitted from the model. -/
structure DesiredSpec where
  architecture : Option String
  config : Option Dict
  devices : Option String
  ephemeral : Option Bool
  profiles : Option String
deriving DecidableEq, Repr

/-- The desired spec of a caller that supplies only name and state:
`_build_config` skips every `None` parameter. -/
def emptySpec : DesiredSpec :=
  { architecture := none, config := none, devices := none,
    ephemeral := none, profiles := none }

/-- The `config`-map branch of `_needs_to_change_container_config`
(lines 567-574): true iff some desired key is missing from the
volatile-filtered observed map or bound to a different value there. -/
def configNeedsChange (desired old : Dict) : Bool :=
  let oldConfigs := filterVolatile old
  desired.any (fun kv =>
    match dictLookup oldConfigs kv.1 with
    | none => true
    | some v => decide (v ≠ kv.2))

/-- `_needs_to_change_container_config(key)` (lines 564-577): `False` when
the key was not supplied; per-key comparison for `config`; plain
inequality for the other sections. -/
def needsToChangeContainerConfig (spec : DesiredSpec) (old : InstanceAttrs) :
    MutableParam → Bool
  | .architecture =>
    match spec.architecture with
    | none => false
    | some v => decide (v ≠ old.architecture)
  | .config =>
    match spec.config with
    | none => false
    | some d => configNeedsChange d old.config
  | .devices =>
    match spec.devices with
    | none => false
    | some v => decide (v ≠ old.devices)
  | .ephemeral =>
    match spec.ephemeral with
    | none => false
    | some v => decide (v ≠ old.ephemeral)
  | .profiles =>
    match spec.profiles with
    | none => false
    | some v => decide (v ≠ old.profiles)

/-- `_needs_to_apply_container_configs` (lines 579-583). -/
def needsToApplyContainerConfigs (spec : DesiredSpec) (old : InstanceAttrs) : Bool :=
  mutableParams.any (needsToChangeContainerConfig spec old)

/-- The `body_json` assembled by `_apply_container_configs` (lines 585-598):
each section starts from the observed metadata and is overwritten by the
desired value when `_needs_to_change_container_config` holds; for `config`
the desired keys are merged into the observed map. -/
def applyBodyJson (spec : DesiredSpec) (old : InstanceAttrs) : InstanceAttrs :=
  { architecture :=
      match spec.architecture with
      | none => old.architecture
      | some v => if v ≠ old.architecture then v else old.architecture
  , config :=
      match spec.config with
      | none => old.config
      | some d => if configNeedsChange d old.config then mergeConfig old.config d
                  else old.config
  , devices :=
      match spec.devices with
      | none => old.devices
      | some v => if v ≠ old.devices then v else old.devices
  , ephemeral :=
      match spec.ephemeral with
      | none => old.ephemeral
      | some v => if v ≠ old.ephemeral then v else old.ephemeral
  , profiles :=
      match spec.profiles with
      | none => old.profiles
      | some v => if v ≠ old.profiles then v else old.profiles }

/-- In the diff-before comprehension (lines 618-623) each section key is
tested with `isinstance(section, dict)`; `section` is the key string, so
the test is always false and the volatile-filtering branch never applies. -/
def sectionKeyIsDict (_section : String) : Bool := false

/-- `self.diff['before']['instance']` for an existing instance
(lines 617-623): the mutable sections of the observed metadata, with the
volatile filter applied only when `sectionKeyIsDict` holds of the key. -/
def beforeInstanceSnapshot (old : InstanceAttrs) : InstanceAttrs :=
  { architecture := old.architecture
  , config := if sectionKeyIsDict "config" then filterVolatile old.config
              else old.config
  , devices := old.devices
  , ephemeral := old.ephemeral
  , profiles := old.profiles }

/-- One address entry of a network device state: family and address. -/
structure NetAddr where
  family : String
  address : String
deriving DecidableEq, Repr

/-- The network portion of `GET .../state`: device name to address list. -/
abbrev Network := List (String × List NetAddr)

/-- Device name to list of IPv4 address strings. -/
abbrev Addrs := List (String × List String)

/-- `_container_ipv4_addresses` (lines 475-482) with the default ignore
list `['lo']`: drop ignored devices, keep only family `inet` addresses. -/
def containerIpv4Addresses (net : Network) : Addrs :=
  (net.filter (fun kv => !(["lo"].contains kv.1))).map
    (fun kv => (kv.1, (kv.2.filter (fun a => a.family == "inet")).map (·.address)))

/-- `_has_all_ipv4_addresses` (lines 484-486). -/
def hasAllIpv4Addresses (a : Addrs) : Bool :=
  decide (a.length > 0) && a.all (fun kv => decide (kv.2.length > 0))

/-- A request issued to the LXD client (`self.client.do`), identified by
its intent; `stateGet i` is the i-th polling fetch of
`_get_container_state_json` inside the address wait. -/
inductive ClientCall where
  | changeState (action : String) (force : Bool)
  | createPost (target : Option String)
  | deleteReq
  | putConfig (body : InstanceAttrs)
  | stateGet (i : Nat)
deriving DecidableEq, Repr

/-- Whether a request mutates control-plane state (everything except the
read-only state fetch). -/
def ClientCall.isMutating : ClientCall → Bool
  | .stateGet _ => false
  | _ => true

/-- The abstract lifecycle operation behind each executor method; the
action the module asks the API to perform (independently of the string it
appends to `self.actions`). -/
inductive Op where
  | create
  | start
  | stop
  | restart
  | delete
  | freeze
  | unfreeze
  | applyConfig
deriving DecidableEq, Repr

/-- The per-run mutable state of `LXDContainerManagement`: the action log,
the abstract operation log, the trace of issued requests, the result
diff fields, and the collected addresses.  `diffBeforeInstance`'s inner
`none` stands for the empty sections dict of an absent instance (the 404
response carries empty metadata). -/
structure RunState where
  actions : List String := []
  ops : List Op := []
  calls : List ClientCall := []
  oldState : String := ""
  diffBeforeState : Option String := none
  diffBeforeInstance : Option (Option InstanceAttrs) := none
  diffAfterState : Option String := none
  diffAfterInstance : Option InstanceAttrs := none
  addresses : Option Addrs := none
deriving DecidableEq, Repr

/-- The oracle environment: module flags plus the control plane's answers.
`auth = some o` means a trust password was supplied and authentication
has outcome `o`; `fetchOutcome` is the initial instance GET (`none`
inside `ok` is the tolerated 404, i.e. absent); `callOk` gives the
outcome of each mutating request actually issued; `netStates i` is the
i-th network-state poll answer. -/
structure Env where
  checkMode : Bool
  waitForIpv4 : Bool
  forceStop : Bool
  timeout : Nat
  target : Option String
  auth : Option (Except String Unit)
  fetchOutcome : Except String (Option Meta)
  callOk : ClientCall → Except String Unit
  netStates : Nat → Except String Network

/-- A step of the run: either the updated state or an exception message
with the state at the point of the raise. -/
abbrev RunM := Except (String × RunState) RunState

/-- Sequencing of run steps: an exception short-circuits the rest of the
method, as in Python. -/
def step (r : RunM) (f : RunState → RunM) : RunM :=
  match r with
  | .ok s => f s
  | .error e => .error e

/-- Issue one request to the client, recording it in the trace; a failing
outcome raises with the message. -/
def issue (env : Env) (c : ClientCall) (s : RunState) : RunM :=
  let s' := { s with calls := s.calls ++ [c] }
  match env.callOk c with
  | .ok _ => .ok s'
  | .error m => .error (m, s')

/-- `_change_state` (lines 433-438): the PUT is issued only outside check
mode. -/
def changeState (env : Env) (action : String) (force : Bool) (s : RunState) : RunM :=
  if env.checkMode then .ok s else issue env (.changeState action force) s

/-- Append an entry to `self.actions` (and its abstract operation). -/
def logAction (s : RunState) (a : String) (o : Op) : RunState :=
  { s with actions := s.actions ++ [a], ops := s.ops ++ [o] }

/-- `_create_container` (lines 440-448): POST (skipped in check mode),
then log `create`. -/
def createContainer (env : Env) (s : RunState) : RunM :=
  step (if env.checkMode then .ok s else issue env (.createPost env.target) s)
    (fun s => .ok (logAction s "create" .create))

/-- `_start_container` (lines 450-452). -/
def startContainer (env : Env) (s : RunState) : RunM :=
  step (changeState env "start" false s)
    (fun s => .ok (logAction s "start" .start))

/-- `_stop_container` (lines 454-456): passes `self.force_stop`. -/
def stopContainer (env : Env) (s : RunState) : RunM :=
  step (changeState env "stop" env.forceStop s)
    (fun s => .ok (logAction s "stop" .stop))

/-- `_restart_container` (lines 458-460). -/
def restartContainer (env : Env) (s : RunState) : RunM :=
  step (changeState env "restart" env.forceStop s)
    (fun s => .ok (logAction s "restart" .restart))

/-- `_delete_container` (lines 462-465). -/
def deleteContainer (env : Env) (s : RunState) : RunM :=
  step (if env.checkMode then .ok s else issue env .deleteReq s)
    (fun s => .ok (logAction s "delete" .delete))

/-- `_freeze_container` (lines 467-469). -/
def freezeContainer (env : Env) (s : RunState) : RunM :=
  step (changeState env "freeze" false s)
    (fun s => .ok (logAction s "freeze" .freeze))

/-- `_unfreeze_container` (lines 471-473): issues the API action
`unfreeze` but appends the string `unfreez` to the action log. -/
def unfreezeContainer (env : Env) (s : RunState) : RunM :=
  step (changeState env "unfreeze" false s)
    (fun s => .ok (logAction s "unfreez" .unfreeze))

/-- The write-through of the merge loop as seen in the before diff:
`body_json['config'] = old_metadata['config']` (line 591) makes
`body_json['config']` the very dict object stored in
`diff['before']['instance']['config']` (the comprehension at lines
618-623 passes section contents through by reference, its isinstance
test being on the key), so assigning the desired keys into it rewrites
the before diff's config in place. -/
def rewriteBeforeConfig (bi : Option (Option InstanceAttrs)) (c : Dict) :
    Option (Option InstanceAttrs) :=
  match bi with
  | some (some b) => some (some { b with config := c })
  | bi => bi

/-- The before-diff after `_apply_container_configs` has built its body:
the in-place merge (lines 595-596) runs exactly when the `config`
attribute needs a change, and then the shared dict holds the merged
map. -/
def mergedBeforeInstance (spec : DesiredSpec) (old : InstanceAttrs)
    (bi : Option (Option InstanceAttrs)) : Option (Option InstanceAttrs) :=
  match spec.config with
  | none => bi
  | some d =>
    if configNeedsChange d old.config then
      rewriteBeforeConfig bi (mergeConfig old.config d)
    else bi

/-- `_apply_container_configs` (lines 585-602): build the body from the
observed metadata overwritten with the desired values, record it in
`diff['after']['instance']`, PUT it unless in check mode, then log.
Because `body_json['config']` aliases the dict held by the before diff
(see `mergedBeforeInstance`), the merge also rewrites
`diff['before']['instance']`. -/
def applyContainerConfigs (env : Env) (spec : DesiredSpec) (old : InstanceAttrs)
    (s : RunState) : RunM :=
  let body := applyBodyJson spec old
  let s := { s with
    diffBeforeInstance := mergedBeforeInstance spec old s.diffBeforeInstance,
    diffAfterInstance := some body }
  step (if env.checkMode then .ok s else issue env (.putConfig body) s)
    (fun s => .ok (logAction s "apply_container_configs" .applyConfig))

/-- The polling loop of `_get_addresses` (lines 488-499), with the
deadline rendered as fuel (one unit per sleep-and-fetch iteration).  Each
iteration records a state fetch; a client exception during polling is
re-raised with its message replaced by the timeout message; running out
of fuel falls out of the loop and returns normally with `addresses`
untouched. -/
def getAddressesLoop (env : Env) (i : Nat) : Nat → RunState → RunM
  | 0, s => .ok s
  | fuel + 1, s =>
    let s' := { s with calls := s.calls ++ [ClientCall.stateGet i] }
    match env.netStates i with
    | .error _ => .error ("timeout for getting IPv4 addresses", s')
    | .ok net =>
      let addresses := containerIpv4Addresses net
      if hasAllIpv4Addresses addresses then .ok { s' with addresses := some addresses }
      else getAddressesLoop env (i + 1) fuel s'

/-- `_get_addresses` (lines 488-499). -/
def getAddresses (env : Env) (s : RunState) : RunM :=
  getAddressesLoop env 0 env.timeout s

/-- `_started` (lines 501-513). -/
def started (env : Env) (spec : DesiredSpec) (oldState : String)
    (old : InstanceAttrs) (s : RunState) : RunM :=
  step
    (if oldState == "absent" then
      step (createContainer env s) (fun s => startContainer env s)
    else
      step
        (if oldState == "frozen" then unfreezeContainer env s
         else if oldState == "stopped" then startContainer env s
         else .ok s)
        (fun s =>
          if needsToApplyContainerConfigs spec old then
            applyContainerConfigs env spec old s
          else .ok s))
    (fun s => if env.waitForIpv4 then getAddresses env s else .ok s)

/-- `_stopped` (lines 515-529). -/
def stopped (env : Env) (spec : DesiredSpec) (oldState : String)
    (old : InstanceAttrs) (s : RunState) : RunM :=
  if oldState == "absent" then createContainer env s
  else if oldState == "stopped" then
    if needsToApplyContainerConfigs spec old then
      step (startContainer env s) (fun s =>
        step (applyContainerConfigs env spec old s) (fun s =>
          stopContainer env s))
    else .ok s
  else
    step (if oldState == "frozen" then unfreezeContainer env s else .ok s)
      (fun s =>
        step
          (if needsToApplyContainerConfigs spec old then
            applyContainerConfigs env spec old s
          else .ok s)
          (fun s => stopContainer env s))

/-- `_restarted` (lines 531-542). -/
def restarted (env : Env) (spec : DesiredSpec) (oldState : String)
    (old : InstanceAttrs) (s : RunState) : RunM :=
  step
    (if oldState == "absent" then
      step (createContainer env s) (fun s => startContainer env s)
    else
      step (if oldState == "frozen" then unfreezeContainer env s else .ok s)
        (fun s =>
          step
            (if needsToApplyContainerConfigs spec old then
              applyContainerConfigs env spec old s
            else .ok s)
            (fun s => restartContainer env s)))
    (fun s => if env.waitForIpv4 then getAddresses env s else .ok s)

/-- `_destroyed` (lines 544-550). -/
def destroyed (env : Env) (oldState : String) (s : RunState) : RunM :=
  if oldState != "absent" then
    step (if oldState == "frozen" then unfreezeContainer env s else .ok s)
      (fun s =>
        step (if oldState != "stopped" then stopContainer env s else .ok s)
          (fun s => deleteContainer env s))
  else .ok s

/-- `_frozen` (lines 552-562): note the unconditional trailing freeze. -/
def frozen (env : Env) (spec : DesiredSpec) (oldState : String)
    (old : InstanceAttrs) (s : RunState) : RunM :=
  if oldState == "absent" then
    step (createContainer env s) (fun s =>
      step (startContainer env s) (fun s => freezeContainer env s))
  else
    step (if oldState == "stopped" then startContainer env s else .ok s)
      (fun s =>
        step
          (if needsToApplyContainerConfigs spec old then
            applyContainerConfigs env spec old s
          else .ok s)
          (fun s => freezeContainer env s))

/-- The validated `state` parameter (`choices=LXD_ANSIBLE_STATES.keys()`). -/
inductive AnsibleState where
  | started
  | stopped
  | restarted
  | absent
  | frozen
deriving DecidableEq, Repr

def AnsibleState.toString : AnsibleState → String
  | .started => "started"
  | .stopped => "stopped"
  | .restarted => "restarted"
  | .absent => "absent"
  | .frozen => "frozen"

/-- `_container_json_to_module_state` (lines 427-431): a 404 error
response means absent, otherwise map the reported status. -/
def containerJsonToModuleState : Option Meta → String
  | none => "absent"
  | some m => statusToState m.status

/-- Placeholder attributes used only on the absent path, where the code
never reads the metadata sections through the planner. -/
def defaultAttrs : InstanceAttrs :=
  { architecture := "", config := [], devices := "", ephemeral := false, profiles := "" }

/-- `getattr(self, LXD_ANSIBLE_STATES[self.state])()` (line 625). -/
def dispatch (env : Env) (spec : DesiredSpec) (oldState : String)
    (old : InstanceAttrs) (st : AnsibleState) (s : RunState) : RunM :=
  match st with
  | .started => started env spec oldState old s
  | .stopped => stopped env spec oldState old s
  | .restarted => restarted env spec oldState old s
  | .absent => destroyed env oldState s
  | .frozen => frozen env spec oldState old s

/-- The body of `run` up to result assembly (lines 604-626): authenticate
when a trust password was supplied, fetch the instance, derive the old
state, populate the diff's state fields and before-instance snapshot,
then dispatch on the desired state. -/
def runE (env : Env) (spec : DesiredSpec) (st : AnsibleState) : RunM :=
  step
    (match env.auth with
     | none => .ok {}
     | some (Except.ok _) => .ok {}
     | some (Except.error m) => .error (m, {}))
    (fun s =>
      match env.fetchOutcome with
      | .error m => .error (m, s)
      | .ok om =>
        let oldState := containerJsonToModuleState om
        let s := { s with oldState := oldState,
                          diffBeforeState := some oldState,
                          diffAfterState := some st.toString }
        let bi := om.map (fun m => beforeInstanceSnapshot m.attrs)
        let s := { s with diffBeforeInstance := some bi }
        let old := (om.map Meta.attrs).getD defaultAttrs
        dispatch env spec oldState old st s)

/-- The result diff, `self.diff`. -/
structure Diff where
  beforeState : Option String
  beforeInstance : Option (Option InstanceAttrs)
  afterState : Option String
  afterInstance : Option InstanceAttrs
deriving DecidableEq, Repr

def diffOfState (s : RunState) : Diff :=
  { beforeState := s.diffBeforeState
  , beforeInstance := s.diffBeforeInstance
  , afterState := s.diffAfterState
  , afterInstance := s.diffAfterInstance }

/-- The structured module result: `exit_json` on success (with `addresses`
only when collected), `fail_json` on an `LXDClientException` (lines
628-651); both compute `changed` as `len(self.actions) > 0`. -/
inductive RunResult where
  | ok (changed : Bool) (oldState : String) (actions : List String)
      (ops : List Op) (diff : Diff) (addresses : Option Addrs)
      (calls : List ClientCall)
  | fail (msg : String) (changed : Bool) (actions : List String)
      (ops : List Op) (diff : Diff) (calls : List ClientCall)
deriving DecidableEq, Repr

/-- `run` (lines 604-651). -/
def run (env : Env) (spec : DesiredSpec) (st : AnsibleState) : RunResult :=
  match runE env spec st with
  | .ok s =>
    .ok (decide (s.actions.length > 0)) s.oldState s.actions s.ops
      (diffOfState s) s.addresses s.calls
  | .error (m, s) =>
    .fail m (decide (s.actions.length > 0)) s.actions s.ops (diffOfState s) s.calls

def RunResult.isOk : RunResult → Bool
  | .ok .. => true
  | .fail .. => false

def RunResult.changedOf : RunResult → Bool
  | .ok c _ _ _ _ _ _ => c
  | .fail _ c _ _ _ _ => c

def RunResult.actionsOf : RunResult → List String
  | .ok _ _ a _ _ _ _ => a
  | .fail _ _ a _ _ _ => a

def RunResult.opsOf : RunResult → List Op
  | .ok _ _ _ o _ _ _ => o
  | .fail _ _ _ o _ _ => o

def RunResult.diffOf : RunResult → Diff
  | .ok _ _ _ _ d _ _ => d
  | .fail _ _ _ _ d _ => d

def RunResult.addressesOf : RunResult → Option Addrs
  | .ok _ _ _ _ _ a _ => a
  | .fail _ _ _ _ _ _ => none

def RunResult.callsOf : RunResult → List ClientCall
  | .ok _ _ _ _ _ _ c => c
  | .fail _ _ _ _ _ c => c

/-- A client that accepts every request. -/
def allOkCalls : ClientCall → Except String Unit := fun _ => .ok ()

/-- A network state in which every non-loopback device has an IPv4
address. -/
def goodNet : Network := [("eth0", [{ family := "inet", address := "10.0.0.5" }])]

/-- A network state whose single device has no IPv4 address yet. -/
def badNet : Network := [("eth0", [])]

/-- Convenience environment constructor used by the theorems. -/
def mkEnv (check wait : Bool) (fuel : Nat) (om : Option Meta)
    (cok : ClientCall → Except String Unit)
    (nets : Nat → Except String Network) : Env :=
  { checkMode := check, waitForIpv4 := wait, forceStop := false,
    timeout := fuel, target := none, auth := none,
    fetchOutcome := .ok om, callOk := cok, netStates := nets }

/-- Modelled from the spec: the transition table for desired state
`started` as the claim words it — Absent gives create then start; Frozen
gives unfreeze then apply-config only if needed; Stopped gives start then
apply-config only if needed; Running gives apply-config only if needed.
Compared against the embedded planner. -/
def specTableStarted (observed : Option Status) (needsApply : Bool) : List Op :=
  match observed with
  | none => [.create, .start]
  | some .frozen => [.unfreeze] ++ (if needsApply then [.applyConfig] else [])
  | some .stopped => [.start] ++ (if needsApply then [.applyConfig] else [])
  | some .running => if needsApply then [.applyConfig] else []

/-- Concrete observed attributes used by the scenario theorems: the
observed config carries a control-plane volatile key next to a user key. -/
def attrsVol : InstanceAttrs :=
  { architecture := "x86_64"
  , config := [("volatile.idmap", "x"), ("limits.cpu", "1")]
  , devices := "d", ephemeral := false, profiles := "p" }

/-- A desired spec pinning `limits.cpu` to its observed value. -/
def specCpu : DesiredSpec := { emptySpec with config := some [("limits.cpu", "1")] }

/-- The common body of the executor methods: issue the request unless it
is to be skipped (check mode), then append to the action log.  Each
executor definitionally instantiates this pattern; it is factored out for
the proofs. -/
def execCore (env : Env) (skip : Bool) (c : ClientCall) (a : String) (o : Op)
    (s : RunState) : RunM :=
  step (if skip then .ok s else issue env c s)
    (fun s' => .ok (logAction s' a o))

/-- Drop the request trace from a run state (the observables that must
agree between a check-mode run and a real run). -/
def RunState.forgetCalls (s : RunState) : RunState := { s with calls := [] }

/-- Drop the request trace from a step outcome. -/
def RunM.strip : RunM → RunM
  | .ok s => .ok s.forgetCalls
  | .error (m, s) => .error (m, s.forgetCalls)

/-- Drop the request trace from a run result. -/
def RunResult.forgetCalls : RunResult → RunResult
  | .ok c os a o d ad _ => .ok c os a o d ad []
  | .fail m c a o d _ => .fail m c a o d []

/-- A desired spec changing `limits.cpu` away from its observed value. -/
def specCpu2 : DesiredSpec := { emptySpec with config := some [("limits.cpu", "2")] }

/-- A predicate pair holding of the outcome of a run step: `P` of the
state on normal return, `Q` of the state carried by a raised exception. -/
def StepInv (P Q : RunState → Prop) : RunM → Prop
  | .ok s => P s
  | .error (_, s) => Q s

/-- Two step outcomes agree once the request trace is dropped. -/
def StripEq (x y : RunM) : Prop := x.strip = y.strip

/-- The diff fields established before dispatch, the coupling of
`diff['after']['instance']` to the apply-config log entry, and the
before-diff: pristine observed snapshot until apply-config runs, and
rewritten through the shared config dict once it has. -/
def DiffInv (om : Option Meta) (spec : DesiredSpec) (st : AnsibleState)
    (s : RunState) : Prop :=
  s.diffBeforeState = some (containerJsonToModuleState om)
  ∧ s.diffAfterState = some st.toString
  ∧ (s.diffAfterInstance.isSome = true ↔ "apply_container_configs" ∈ s.actions)
  ∧ ("apply_container_configs" ∉ s.actions →
      s.diffBeforeInstance = some (om.map (fun m => beforeInstanceSnapshot m.attrs)))
  ∧ ("apply_container_configs" ∈ s.actions →
      s.diffBeforeInstance
        = mergedBeforeInstance spec ((om.map Meta.attrs).getD defaultAttrs)
            (some (om.map (fun m => beforeInstanceSnapshot m.attrs))))

/-- Collected addresses always pass the readiness check. -/
def AddrInv (s : RunState) : Prop :=
  ∀ a, s.addresses = some a → hasAllIpv4Addresses a = true

end LXD

namespace LXD

lemma createContainer_eq (env : Env) (s : RunState) :
    createContainer env s
      = execCore env env.checkMode (.createPost env.target) "create" .create s := rfl

lemma startContainer_eq (env : Env) (s : RunState) :
    startContainer env s
      = execCore env env.checkMode (.changeState "start" false) "start" .start s := rfl

lemma stopContainer_eq (env : Env) (s : RunState) :
    stopContainer env s
      = execCore env env.checkMode (.changeState "stop" env.forceStop) "stop" .stop s := rfl

lemma restartContainer_eq (env : Env) (s : RunState) :
    restartContainer env s
      = execCore env env.checkMode (.changeState "restart" env.forceStop) "restart" .restart s := rfl

lemma deleteContainer_eq (env : Env) (s : RunState) :
    deleteContainer env s = execCore env env.checkMode .deleteReq "delete" .delete s := rfl

lemma freezeContainer_eq (env : Env) (s : RunState) :
    freezeContainer env s
      = execCore env env.checkMode (.changeState "freeze" false) "freeze" .freeze s := rfl

lemma unfreezeContainer_eq (env : Env) (s : RunState) :
    unfreezeContainer env s
      = execCore env env.checkMode (.changeState "unfreeze" false) "unfreez" .unfreeze s := rfl

lemma execCore_shape (env : Env) (skip : Bool) (c : ClientCall) (a : String) (o : Op)
    (s : RunState) :
    (∃ l, execCore env skip c a o s
        = .ok { s with calls := s.calls ++ l,
                       actions := s.actions ++ [a], ops := s.ops ++ [o] })
    ∨ (∃ m l, execCore env skip c a o s = .error (m, { s with calls := s.calls ++ l })) := by
  unfold execCore issue step
  cases skip with
  | true => exact Or.inl ⟨[], by simp [logAction]⟩
  | false =>
    cases h : env.callOk c with
    | ok u => exact Or.inl ⟨[c], by simp [h, logAction]⟩
    | error m => exact Or.inr ⟨m, [c], by simp [h]⟩

lemma applyContainerConfigs_shape (env : Env) (spec : DesiredSpec) (old : InstanceAttrs)
    (s : RunState) :
    (∃ l, applyContainerConfigs env spec old s
        = .ok { s with calls := s.calls ++ l,
                       actions := s.actions ++ ["apply_container_configs"],
                       ops := s.ops ++ [.applyConfig],
                       diffBeforeInstance := mergedBeforeInstance spec old s.diffBeforeInstance,
                       diffAfterInstance := some (applyBodyJson spec old) })
    ∨ (∃ m l, applyContainerConfigs env spec old s
        = .error (m, { s with calls := s.calls ++ l,
                              diffBeforeInstance := mergedBeforeInstance spec old s.diffBeforeInstance,
                              diffAfterInstance := some (applyBodyJson spec old) })) := by
  unfold applyContainerConfigs issue step
  cases hc : env.checkMode with
  | true => exact Or.inl ⟨[], by simp [logAction]⟩
  | false =>
    cases h : env.callOk (.putConfig (applyBodyJson spec old)) with
    | ok u => exact Or.inl ⟨[.putConfig (applyBodyJson spec old)], by simp [h, logAction]⟩
    | error m => exact Or.inr ⟨m, [.putConfig (applyBodyJson spec old)], by simp [h]⟩

lemma getAddressesLoop_shape (env : Env) (fuel : Nat) : ∀ (i : Nat) (s : RunState),
    (∃ l, getAddressesLoop env i fuel s = .ok { s with calls := s.calls ++ l })
    ∨ (∃ l a, hasAllIpv4Addresses a = true
        ∧ getAddressesLoop env i fuel s
            = .ok { s with calls := s.calls ++ l, addresses := some a })
    ∨ (∃ l, getAddressesLoop env i fuel s
        = .error ("timeout for getting IPv4 addresses", { s with calls := s.calls ++ l })) := by
  induction fuel with
  | zero => intro i s; exact Or.inl ⟨[], by simp [getAddressesLoop]⟩
  | succ f ih =>
    intro i s
    unfold getAddressesLoop
    cases h : env.netStates i with
    | error m => exact Or.inr (Or.inr ⟨[.stateGet i], by simp [h]⟩)
    | ok net =>
      by_cases ha : hasAllIpv4Addresses (containerIpv4Addresses net) = true
      · exact Or.inr (Or.inl ⟨[.stateGet i], containerIpv4Addresses net, ha, by simp [h, ha]⟩)
      · rcases ih (i + 1) { s with calls := s.calls ++ [ClientCall.stateGet i] } with
          ⟨l, hl⟩ | ⟨l, a, haa, hl⟩ | ⟨l, hl⟩
        · refine Or.inl ⟨[ClientCall.stateGet i] ++ l, ?_⟩
          simp only [h, Bool.not_eq_true] at *
          simp [ha, hl]
        · refine Or.inr (Or.inl ⟨[ClientCall.stateGet i] ++ l, a, haa, ?_⟩)
          simp only [h, Bool.not_eq_true] at *
          simp [ha, hl]
        · refine Or.inr (Or.inr ⟨[ClientCall.stateGet i] ++ l, ?_⟩)
          simp only [h, Bool.not_eq_true] at *
          simp [ha, hl]

end LXD

namespace LXD

lemma stepInv_step {R P Q : RunState → Prop} {r : RunM} {f : RunState → RunM}
    (hr : StepInv R Q r) (hf : ∀ s, R s → StepInv P Q (f s)) :
    StepInv P Q (step r f) := by
  unfold step
  cases r with
  | ok s => exact hf s hr
  | error e => exact hr

lemma stepInv_ok {P Q : RunState → Prop} {s : RunState} (hs : P s) :
    StepInv P Q (.ok s) := hs

section HandlerInv

variable (P Q : RunState → Prop) (env : Env) (spec : DesiredSpec)
variable (oldState : String) (old : InstanceAttrs)

lemma started_inv
    (hexec : ∀ (c : ClientCall) (a : String) (o : Op), a ≠ "apply_container_configs" →
      ∀ s, P s → StepInv P Q (execCore env env.checkMode c a o s))
    (happly : needsToApplyContainerConfigs spec old = true →
      ∀ s, P s → StepInv P Q (applyContainerConfigs env spec old s))
    (haddr : ∀ s, P s → StepInv P Q (getAddresses env s))
    (s : RunState) (hs : P s) : StepInv P Q (started env spec oldState old s) := by
  have hcr : ∀ s, P s → StepInv P Q (createContainer env s) := fun s hs => by
    rw [createContainer_eq]; exact hexec _ _ _ (by decide) s hs
  have hst : ∀ s, P s → StepInv P Q (startContainer env s) := fun s hs => by
    rw [startContainer_eq]; exact hexec _ _ _ (by decide) s hs
  have hun : ∀ s, P s → StepInv P Q (unfreezeContainer env s) := fun s hs => by
    rw [unfreezeContainer_eq]; exact hexec _ _ _ (by decide) s hs
  unfold started
  apply stepInv_step (R := P)
  · split
    · exact stepInv_step (R := P) (hcr s hs) hst
    · apply stepInv_step (R := P)
      · split
        · exact hun s hs
        · split
          · exact hst s hs
          · exact stepInv_ok hs
      · intro s' hs'
        split
        · rename_i hna
          exact happly hna s' hs'
        · exact stepInv_ok hs'
  · intro s' hs'
    split
    · exact haddr s' hs'
    · exact stepInv_ok hs'

lemma stopped_inv
    (hexec : ∀ (c : ClientCall) (a : String) (o : Op), a ≠ "apply_container_configs" →
      ∀ s, P s → StepInv P Q (execCore env env.checkMode c a o s))
    (happly : needsToApplyContainerConfigs spec old = true →
      ∀ s, P s → StepInv P Q (applyContainerConfigs env spec old s))
    (s : RunState) (hs : P s) : StepInv P Q (stopped env spec oldState old s) := by
  have hcr : ∀ s, P s → StepInv P Q (createContainer env s) := fun s hs => by
    rw [createContainer_eq]; exact hexec _ _ _ (by decide) s hs
  have hst : ∀ s, P s → StepInv P Q (startContainer env s) := fun s hs => by
    rw [startContainer_eq]; exact hexec _ _ _ (by decide) s hs
  have hsp : ∀ s, P s → StepInv P Q (stopContainer env s) := fun s hs => by
    rw [stopContainer_eq]; exact hexec _ _ _ (by decide) s hs
  have hun : ∀ s, P s → StepInv P Q (unfreezeContainer env s) := fun s hs => by
    rw [unfreezeContainer_eq]; exact hexec _ _ _ (by decide) s hs
  unfold stopped
  split
  · exact hcr s hs
  · split
    · split
      · rename_i hna
        exact stepInv_step (R := P) (hst s hs) (fun s' hs' =>
          stepInv_step (R := P) (happly hna s' hs') hsp)
      · exact stepInv_ok hs
    · apply stepInv_step (R := P)
      · split
        · exact hun s hs
        · exact stepInv_ok hs
      · intro s' hs'
        apply stepInv_step (R := P)
        · split
          · rename_i hna
            exact happly hna s' hs'
          · exact stepInv_ok hs'
        · exact hsp

lemma restarted_inv
    (hexec : ∀ (c : ClientCall) (a : String) (o : Op), a ≠ "apply_container_configs" →
      ∀ s, P s → StepInv P Q (execCore env env.checkMode c a o s))
    (happly : needsToApplyContainerConfigs spec old = true →
      ∀ s, P s → StepInv P Q (applyContainerConfigs env spec old s))
    (haddr : ∀ s, P s → StepInv P Q (getAddresses env s))
    (s : RunState) (hs : P s) : StepInv P Q (restarted env spec oldState old s) := by
  have hcr : ∀ s, P s → StepInv P Q (createContainer env s) := fun s hs => by
    rw [createContainer_eq]; exact hexec _ _ _ (by decide) s hs
  have hst : ∀ s, P s → StepInv P Q (startContainer env s) := fun s hs => by
    rw [startContainer_eq]; exact hexec _ _ _ (by decide) s hs
  have hrs : ∀ s, P s → StepInv P Q (restartContainer env s) := fun s hs => by
    rw [restartContainer_eq]; exact hexec _ _ _ (by decide) s hs
  have hun : ∀ s, P s → StepInv P Q (unfreezeContainer env s) := fun s hs => by
    rw [unfreezeContainer_eq]; exact hexec _ _ _ (by decide) s hs
  unfold restarted
  apply stepInv_step (R := P)
  · split
    · exact stepInv_step (R := P) (hcr s hs) hst
    · apply stepInv_step (R := P)
      · split
        · exact hun s hs
        · exact stepInv_ok hs
      · intro s' hs'
        apply stepInv_step (R := P)
        · split
          · rename_i hna
            exact happly hna s' hs'
          · exact stepInv_ok hs'
        · exact hrs
  · intro s' hs'
    split
    · exact haddr s' hs'
    · exact stepInv_ok hs'

lemma destroyed_inv
    (hexec : ∀ (c : ClientCall) (a : String) (o : Op), a ≠ "apply_container_configs" →
      ∀ s, P s → StepInv P Q (execCore env env.checkMode c a o s))
    (s : RunState) (hs : P s) : StepInv P Q (destroyed env oldState s) := by
  have hsp : ∀ s, P s → StepInv P Q (stopContainer env s) := fun s hs => by
    rw [stopContainer_eq]; exact hexec _ _ _ (by decide) s hs
  have hun : ∀ s, P s → StepInv P Q (unfreezeContainer env s) := fun s hs => by
    rw [unfreezeContainer_eq]; exact hexec _ _ _ (by decide) s hs
  have hdl : ∀ s, P s → StepInv P Q (deleteContainer env s) := fun s hs => by
    rw [deleteContainer_eq]; exact hexec _ _ _ (by decide) s hs
  unfold destroyed
  split
  · apply stepInv_step (R := P)
    · split
      · exact hun s hs
      · exact stepInv_ok hs
    · intro s' hs'
      apply stepInv_step (R := P)
      · split
        · exact hsp s' hs'
        · exact stepInv_ok hs'
      · exact hdl
  · exact stepInv_ok hs

lemma frozen_inv
    (hexec : ∀ (c : ClientCall) (a : String) (o : Op), a ≠ "apply_container_configs" →
      ∀ s, P s → StepInv P Q (execCore env env.checkMode c a o s))
    (happly : needsToApplyContainerConfigs spec old = true →
      ∀ s, P s → StepInv P Q (applyContainerConfigs env spec old s))
    (s : RunState) (hs : P s) : StepInv P Q (frozen env spec oldState old s) := by
  have hcr : ∀ s, P s → StepInv P Q (createContainer env s) := fun s hs => by
    rw [createContainer_eq]; exact hexec _ _ _ (by decide) s hs
  have hst : ∀ s, P s → StepInv P Q (startContainer env s) := fun s hs => by
    rw [startContainer_eq]; exact hexec _ _ _ (by decide) s hs
  have hfr : ∀ s, P s → StepInv P Q (freezeContainer env s) := fun s hs => by
    rw [freezeContainer_eq]; exact hexec _ _ _ (by decide) s hs
  unfold frozen
  split
  · exact stepInv_step (R := P) (hcr s hs) (fun s' hs' =>
      stepInv_step (R := P) (hst s' hs') hfr)
  · apply stepInv_step (R := P)
    · split
      · exact hst s hs
      · exact stepInv_ok hs
    · intro s' hs'
      apply stepInv_step (R := P)
      · split
        · rename_i hna
          exact happly hna s' hs'
        · exact stepInv_ok hs'
      · exact hfr

lemma dispatch_inv (st : AnsibleState)
    (hexec : ∀ (c : ClientCall) (a : String) (o : Op), a ≠ "apply_container_configs" →
      ∀ s, P s → StepInv P Q (execCore env env.checkMode c a o s))
    (happly : needsToApplyContainerConfigs spec old = true →
      ∀ s, P s → StepInv P Q (applyContainerConfigs env spec old s))
    (haddr : ∀ s, P s → StepInv P Q (getAddresses env s))
    (s : RunState) (hs : P s) :
    StepInv P Q (dispatch env spec oldState old st s) := by
  cases st with
  | started => exact started_inv P Q env spec oldState old hexec happly haddr s hs
  | stopped => exact stopped_inv P Q env spec oldState old hexec happly s hs
  | restarted => exact restarted_inv P Q env spec oldState old hexec happly haddr s hs
  | absent => exact destroyed_inv P Q env oldState hexec s hs
  | frozen => exact frozen_inv P Q env spec oldState old hexec happly s hs

end HandlerInv

end LXD

namespace LXD

lemma runE_inv (P Q : RunState → Prop) (env : Env) (spec : DesiredSpec)
    (st : AnsibleState)
    (hauth : ∀ m, env.auth = some (Except.error m) → Q ({} : RunState))
    (hferr : ∀ m, env.fetchOutcome = .error m → Q ({} : RunState))
    (hinit : ∀ om, env.fetchOutcome = .ok om →
      P { oldState := containerJsonToModuleState om,
          diffBeforeState := some (containerJsonToModuleState om),
          diffAfterState := some st.toString,
          diffBeforeInstance := some (om.map (fun m => beforeInstanceSnapshot m.attrs)) })
    (hexec : ∀ (c : ClientCall) (a : String) (o : Op), a ≠ "apply_container_configs" →
      ∀ s, P s → StepInv P Q (execCore env env.checkMode c a o s))
    (happly : ∀ om, env.fetchOutcome = .ok om →
      needsToApplyContainerConfigs spec ((om.map Meta.attrs).getD defaultAttrs) = true →
      ∀ s, P s →
        StepInv P Q (applyContainerConfigs env spec ((om.map Meta.attrs).getD defaultAttrs) s))
    (haddr : ∀ s, P s → StepInv P Q (getAddresses env s)) :
    StepInv P Q (runE env spec st) := by
  unfold runE
  apply stepInv_step (R := fun s => s = ({} : RunState))
  · cases ha : env.auth with
    | none => exact stepInv_ok rfl
    | some o =>
      cases o with
      | ok u => exact stepInv_ok rfl
      | error m => exact hauth m ha
  · intro s hs
    subst hs
    cases hf : env.fetchOutcome with
    | error m => exact hferr m hf
    | ok om =>
      exact dispatch_inv P Q env spec _ _ st hexec (happly om hf) haddr _ (hinit om hf)

lemma execCore_allOk (env : Env) (h : env.callOk = allOkCalls) (skip : Bool)
    (c : ClientCall) (a : String) (o : Op) (s : RunState) :
    ∃ l, execCore env skip c a o s
      = .ok { s with calls := s.calls ++ l,
                     actions := s.actions ++ [a], ops := s.ops ++ [o] } := by
  unfold execCore issue step
  cases skip with
  | true => exact ⟨[], by simp [logAction]⟩
  | false =>
    refine ⟨[c], ?_⟩
    simp [h, allOkCalls, logAction]

lemma applyContainerConfigs_allOk (env : Env) (h : env.callOk = allOkCalls)
    (spec : DesiredSpec) (old : InstanceAttrs) (s : RunState) :
    ∃ l, applyContainerConfigs env spec old s
      = .ok { s with calls := s.calls ++ l,
                     actions := s.actions ++ ["apply_container_configs"],
                     ops := s.ops ++ [.applyConfig],
                     diffBeforeInstance := mergedBeforeInstance spec old s.diffBeforeInstance,
                     diffAfterInstance := some (applyBodyJson spec old) } := by
  unfold applyContainerConfigs issue step
  cases hc : env.checkMode with
  | true => exact ⟨[], by simp [logAction]⟩
  | false =>
    refine ⟨[.putConfig (applyBodyJson spec old)], ?_⟩
    simp [h, allOkCalls, logAction]

lemma getAddressesLoop_neverFull (env : Env)
    (h : ∀ j, ∃ net, env.netStates j = .ok net
        ∧ hasAllIpv4Addresses (containerIpv4Addresses net) = false) :
    ∀ (fuel i : Nat) (s : RunState),
      ∃ l, getAddressesLoop env i fuel s = .ok { s with calls := s.calls ++ l } := by
  intro fuel
  induction fuel with
  | zero => intro i s; exact ⟨[], by simp [getAddressesLoop]⟩
  | succ f ih =>
    intro i s
    obtain ⟨net, hn, hfull⟩ := h i
    obtain ⟨l, hl⟩ := ih (i + 1) { s with calls := s.calls ++ [ClientCall.stateGet i] }
    refine ⟨[ClientCall.stateGet i] ++ l, ?_⟩
    unfold getAddressesLoop
    simp [hn, hfull, hl]

end LXD

namespace LXD

lemma needsToApply_emptySpec (a : InstanceAttrs) :
    needsToApplyContainerConfigs emptySpec a = false := rfl

lemma no_apply_run (env : Env) (st : AnsibleState) :
    "apply_container_configs" ∉ (run env emptySpec st).actionsOf := by
  have h := runE_inv (fun s => "apply_container_configs" ∉ s.actions)
    (fun s => "apply_container_configs" ∉ s.actions) env emptySpec st
    (by intro m hm; simp)
    (by intro m hm; simp)
    (by intro om hf; simp)
    ?hexec ?happly ?haddr
  case hexec =>
    intro c a o ha s hs
    rcases execCore_shape env env.checkMode c a o s with ⟨l, hl⟩ | ⟨m, l, hl⟩ <;> rw [hl]
    · show "apply_container_configs" ∉ s.actions ++ [a]
      simp only [List.mem_append, List.mem_singleton]
      rintro (hh | hh)
      · exact hs hh
      · exact ha hh.symm
    · exact hs
  case happly =>
    intro om hf hna
    rw [needsToApply_emptySpec] at hna
    exact absurd hna (by simp)
  case haddr =>
    intro s hs
    rcases getAddressesLoop_shape env env.timeout 0 s with
      ⟨l, hl⟩ | ⟨l, a, haa, hl⟩ | ⟨l, hl⟩ <;> unfold getAddresses <;> rw [hl] <;> exact hs
  unfold run
  cases hr : runE env emptySpec st with
  | ok s =>
    rw [hr] at h
    simpa [RunResult.actionsOf] using h
  | error e =>
    obtain ⟨m, s⟩ := e
    rw [hr] at h
    simpa [RunResult.actionsOf] using h

/-- Claim C10: a mutable attribute omitted from the desired spec (left
`None` by `_build_config`) never triggers a config diff: the per-attribute
check returns false for every omitted attribute regardless of the
observed value, so a desired spec supplying only name and state never
causes an apply-config action on an existing instance, under any client
behaviour. -/
theorem c10_omitted_attributes_no_diff :
    (∀ (spec : DesiredSpec) (a : InstanceAttrs), spec.architecture = none →
        needsToChangeContainerConfig spec a .architecture = false)
    ∧ (∀ (spec : DesiredSpec) (a : InstanceAttrs), spec.config = none →
        needsToChangeContainerConfig spec a .config = false)
    ∧ (∀ (spec : DesiredSpec) (a : InstanceAttrs), spec.devices = none →
        needsToChangeContainerConfig spec a .devices = false)
    ∧ (∀ (spec : DesiredSpec) (a : InstanceAttrs), spec.ephemeral = none →
        needsToChangeContainerConfig spec a .ephemeral = false)
    ∧ (∀ (spec : DesiredSpec) (a : InstanceAttrs), spec.profiles = none →
        needsToChangeContainerConfig spec a .profiles = false)
    ∧ (∀ a, needsToApplyContainerConfigs emptySpec a = false)
    ∧ (∀ (env : Env) (st : AnsibleState),
        "apply_container_configs" ∉ (run env emptySpec st).actionsOf) := by
  refine ⟨?_, ?_, ?_, ?_, ?_, needsToApply_emptySpec, no_apply_run⟩ <;>
    intro spec a h <;> simp [needsToChangeContainerConfig, h]

end LXD

namespace LXD

lemma mergedBeforeInstance_idem (spec : DesiredSpec) (old : InstanceAttrs)
    (bi : Option (Option InstanceAttrs)) :
    mergedBeforeInstance spec old (mergedBeforeInstance spec old bi)
      = mergedBeforeInstance spec old bi := by
  unfold mergedBeforeInstance
  cases hs : spec.config with
  | none => rfl
  | some d =>
    cases hc : configNeedsChange d old.config with
    | false => simp [hc]
    | true =>
      simp only [hc, if_true]
      unfold rewriteBeforeConfig
      rcases bi with _ | (_ | b) <;> rfl

lemma runE_diffInv (env : Env) (spec : DesiredSpec) (st : AnsibleState)
    (om : Option Meta) (hf : env.fetchOutcome = .ok om) :
    StepInv (DiffInv om spec st) (fun _ => True) (runE env spec st) := by
  apply runE_inv (DiffInv om spec st) (fun _ => True) env spec st
  · intro m hm; trivial
  · intro m hm; trivial
  · intro om' hf'
    rw [hf] at hf'
    injection hf' with hf'
    subst hf'
    refine ⟨rfl, rfl, by simp, fun _ => rfl, ?_⟩
    intro hmem
    exact absurd hmem (by simp)
  · intro c a o ha s hs
    obtain ⟨h1, h2, h3, h4, h5⟩ := hs
    rcases execCore_shape env env.checkMode c a o s with ⟨l, hl⟩ | ⟨m, l, hl⟩ <;> rw [hl]
    · refine ⟨h1, h2, ?_, ?_, ?_⟩
      · show s.diffAfterInstance.isSome = true ↔ _ ∈ s.actions ++ [a]
        rw [h3]
        simp only [List.mem_append, List.mem_singleton]
        constructor
        · exact fun hh => Or.inl hh
        · rintro (hh | hh)
          · exact hh
          · exact absurd hh.symm ha
      · intro hnot
        refine h4 fun hmem => hnot ?_
        exact List.mem_append.mpr (Or.inl hmem)
      · intro hmem
        rcases List.mem_append.mp hmem with hh | hh
        · exact h5 hh
        · exact absurd (List.mem_singleton.mp hh).symm ha
    · trivial
  · intro om' hf' hna s hs
    have hom : om' = om := by
      rw [hf] at hf'
      injection hf' with hh
      exact hh.symm
    subst hom
    obtain ⟨h1, h2, h3, h4, h5⟩ := hs
    rcases applyContainerConfigs_shape env spec ((om'.map Meta.attrs).getD defaultAttrs) s with
      ⟨l, hl⟩ | ⟨m, l, hl⟩ <;> rw [hl]
    · refine ⟨h1, h2, by simp, ?_, ?_⟩
      · intro hnot
        exact absurd (List.mem_append.mpr
          (Or.inr (List.mem_singleton.mpr rfl))) hnot
      · intro _
        show mergedBeforeInstance spec _ s.diffBeforeInstance = _
        by_cases hmem : "apply_container_configs" ∈ s.actions
        · rw [h5 hmem, mergedBeforeInstance_idem]
        · rw [h4 hmem]
    · trivial
  · intro s hs
    obtain ⟨h1, h2, h3, h4, h5⟩ := hs
    rcases getAddressesLoop_shape env env.timeout 0 s with
      ⟨l, hl⟩ | ⟨l, a, haa, hl⟩ | ⟨l, hl⟩ <;> unfold getAddresses <;> rw [hl]
    · exact ⟨h1, h2, h3, h4, h5⟩
    · exact ⟨h1, h2, h3, h4, h5⟩
    · trivial

/-- Claim C9 as amended: on every successful run the diff's before part
carries the observed state and the after part the desired state; the
after part carries the intended instance attributes exactly when
apply-config executed; the before part carries the pristine observed
mutable attributes only while apply-config has not run — once it has,
the shared config dict has been rewritten in place, so the before part
shows the merged (desired-overwritten) config instead. -/
theorem c9_diff_population (env : Env) (spec : DesiredSpec) (st : AnsibleState)
    (om : Option Meta) (hf : env.fetchOutcome = .ok om)
    (chg : Bool) (os : String) (acts : List String) (ops : List Op) (d : Diff)
    (ad : Option Addrs) (calls : List ClientCall)
    (h : run env spec st = .ok chg os acts ops d ad calls) :
    d.beforeState = some (containerJsonToModuleState om)
    ∧ d.afterState = some st.toString
    ∧ (d.afterInstance.isSome = true ↔ "apply_container_configs" ∈ acts)
    ∧ ("apply_container_configs" ∉ acts →
        d.beforeInstance = some (om.map (fun m => beforeInstanceSnapshot m.attrs)))
    ∧ ("apply_container_configs" ∈ acts →
        d.beforeInstance
          = mergedBeforeInstance spec ((om.map Meta.attrs).getD defaultAttrs)
              (some (om.map (fun m => beforeInstanceSnapshot m.attrs)))) := by
  have hinv := runE_diffInv env spec st om hf
  unfold run at h
  cases hr : runE env spec st with
  | ok s =>
    rw [hr] at h hinv
    injection h with h1 h2 h3 h4 h5 h6 h7
    obtain ⟨g1, g2, g3, g4, g5⟩ := hinv
    subst h3
    subst h5
    exact ⟨g1, g2, g3, g4, g5⟩
  | error e =>
    obtain ⟨m, s⟩ := e
    rw [hr] at h
    exact absurd h (by simp)

end LXD

namespace LXD

lemma runE_addrInv (env : Env) (spec : DesiredSpec) (st : AnsibleState) :
    StepInv AddrInv AddrInv (runE env spec st) := by
  apply runE_inv AddrInv AddrInv env spec st
  · intro m hm a ha; simp at ha
  · intro m hm a ha; simp at ha
  · intro om hf a ha; simp at ha
  · intro c a o ha s hs
    rcases execCore_shape env env.checkMode c a o s with ⟨l, hl⟩ | ⟨m, l, hl⟩ <;> rw [hl] <;>
      exact fun a' ha' => hs a' ha'
  · intro om hf hna s hs
    rcases applyContainerConfigs_shape env spec ((om.map Meta.attrs).getD defaultAttrs) s with
      ⟨l, hl⟩ | ⟨m, l, hl⟩ <;> rw [hl] <;>
      exact fun a' ha' => hs a' ha'
  · intro s hs
    rcases getAddressesLoop_shape env env.timeout 0 s with
      ⟨l, hl⟩ | ⟨l, a, haa, hl⟩ | ⟨l, hl⟩ <;> unfold getAddresses <;> rw [hl]
    · exact fun a' ha' => hs a' ha'
    · intro a' ha'
      simp only at ha'
      rw [Option.some.injEq] at ha'
      rw [← ha']
      exact haa
    · exact fun a' ha' => hs a' ha'

lemma run_no_partial_addresses (env : Env) (spec : DesiredSpec) (st : AnsibleState)
    (chg : Bool) (os : String) (acts : List String) (ops : List Op) (d : Diff)
    (a : Addrs) (calls : List ClientCall)
    (h : run env spec st = .ok chg os acts ops d (some a) calls) :
    hasAllIpv4Addresses a = true := by
  have hinv := runE_addrInv env spec st
  unfold run at h
  cases hr : runE env spec st with
  | ok s =>
    rw [hr] at h hinv
    injection h with h1 h2 h3 h4 h5 h6 h7
    exact hinv a h6
  | error e =>
    obtain ⟨m, s⟩ := e
    rw [hr] at h
    exact absurd h (by simp)

lemma run_timeout_returns_ok (om : Option Meta) (spec : DesiredSpec) (st : AnsibleState)
    (wait : Bool) (fuel : Nat) (nets : Nat → Network)
    (hfull : ∀ j, hasAllIpv4Addresses (containerIpv4Addresses (nets j)) = false) :
    (run (mkEnv false wait fuel om allOkCalls (fun j => .ok (nets j))) spec st).isOk = true
    ∧ (run (mkEnv false wait fuel om allOkCalls (fun j => .ok (nets j))) spec st).addressesOf
        = none := by
  have hco : (mkEnv false wait fuel om allOkCalls (fun j => .ok (nets j))).callOk
      = allOkCalls := rfl
  have hnets : ∀ j, ∃ net,
      (mkEnv false wait fuel om allOkCalls (fun j => .ok (nets j))).netStates j = .ok net
      ∧ hasAllIpv4Addresses (containerIpv4Addresses net) = false :=
    fun j => ⟨nets j, rfl, hfull j⟩
  have hinv := runE_inv (fun s => s.addresses = none) (fun _ => False)
    (mkEnv false wait fuel om allOkCalls (fun j => .ok (nets j))) spec st
    (by intro m hm; simp [mkEnv] at hm)
    (by intro m hm; simp [mkEnv] at hm)
    (by intro om' hf'; rfl)
    ?hexec ?happly ?haddr
  case hexec =>
    intro c a o ha s hs
    obtain ⟨l, hl⟩ := execCore_allOk _ hco _ c a o s
    rw [hl]
    exact hs
  case happly =>
    intro om' hf' hna s hs
    obtain ⟨l, hl⟩ := applyContainerConfigs_allOk _ hco spec _ s
    rw [hl]
    exact hs
  case haddr =>
    intro s hs
    obtain ⟨l, hl⟩ := getAddressesLoop_neverFull _ hnets _ 0 s
    unfold getAddresses
    rw [hl]
    exact hs
  unfold run
  cases hr : runE (mkEnv false wait fuel om allOkCalls (fun j => .ok (nets j))) spec st with
  | ok s =>
    rw [hr] at hinv
    exact ⟨rfl, by simpa [RunResult.addressesOf] using hinv⟩
  | error e =>
    obtain ⟨m, s⟩ := e
    rw [hr] at hinv
    exact hinv.elim

end LXD

namespace LXD

lemma strip_step {x y : RunM} {f g : RunState → RunM}
    (hr : StripEq x y)
    (hf : ∀ s t, s.forgetCalls = t.forgetCalls → StripEq (f s) (g t)) :
    StripEq (step x f) (step y g) := by
  cases x with
  | ok s =>
    cases y with
    | ok t =>
      have hst : s.forgetCalls = t.forgetCalls := by
        simp only [StripEq, RunM.strip] at hr
        injection hr
      exact hf s t hst
    | error e =>
      obtain ⟨m, t⟩ := e
      simp only [StripEq, RunM.strip] at hr
      exact absurd hr (by simp)
  | error e =>
    obtain ⟨m, s⟩ := e
    cases y with
    | ok t =>
      simp only [StripEq, RunM.strip] at hr
      exact absurd hr (by simp)
    | error e2 =>
      obtain ⟨m2, t⟩ := e2
      simp only [StripEq, RunM.strip, step] at hr ⊢
      exact hr

lemma forgetCalls_fields {s t : RunState} (h : s.forgetCalls = t.forgetCalls) :
    s.actions = t.actions ∧ s.ops = t.ops ∧ s.oldState = t.oldState
    ∧ s.diffBeforeState = t.diffBeforeState
    ∧ s.diffBeforeInstance = t.diffBeforeInstance
    ∧ s.diffAfterState = t.diffAfterState
    ∧ s.diffAfterInstance = t.diffAfterInstance
    ∧ s.addresses = t.addresses := by
  cases s
  cases t
  simp only [RunState.forgetCalls, RunState.mk.injEq] at h
  simp only [RunState.mk.injEq]
  exact ⟨h.1, h.2.1, h.2.2.2.1, h.2.2.2.2.1, h.2.2.2.2.2.1, h.2.2.2.2.2.2.1,
    h.2.2.2.2.2.2.2.1, h.2.2.2.2.2.2.2.2⟩

end LXD

namespace LXD

section StripSim

variable {e₁ e₂ : Env}

lemma strip_execCore (h₁ : e₁.checkMode = true) (h₂ : e₂.checkMode = false)
    (hok : e₂.callOk = allOkCalls) (c₁ c₂ : ClientCall) (a : String) (o : Op)
    {s t : RunState} (hs : s.forgetCalls = t.forgetCalls) :
    StripEq (execCore e₁ e₁.checkMode c₁ a o s) (execCore e₂ e₂.checkMode c₂ a o t) := by
  rw [h₁, h₂]
  unfold execCore issue step
  simp only [hok, allOkCalls]
  obtain ⟨q1, q2, q3, q4, q5, q6, q7, q8⟩ := forgetCalls_fields hs
  cases s
  cases t
  simp only [RunState.mk.injEq] at q1 q2 q3 q4 q5 q6 q7 q8
  simp only [StripEq, RunM.strip]
  simp [logAction, RunState.forgetCalls, RunState.mk.injEq,
    q1, q2, q3, q4, q5, q6, q7, q8]

lemma strip_applyContainerConfigs (h₁ : e₁.checkMode = true) (h₂ : e₂.checkMode = false)
    (hok : e₂.callOk = allOkCalls) (spec : DesiredSpec) (old : InstanceAttrs)
    {s t : RunState} (hs : s.forgetCalls = t.forgetCalls) :
    StripEq (applyContainerConfigs e₁ spec old s) (applyContainerConfigs e₂ spec old t) := by
  unfold applyContainerConfigs issue step
  rw [h₁, h₂]
  simp only [hok, allOkCalls]
  obtain ⟨q1, q2, q3, q4, q5, q6, q7, q8⟩ := forgetCalls_fields hs
  cases s
  cases t
  simp only [RunState.mk.injEq] at q1 q2 q3 q4 q5 q6 q7 q8
  simp only [StripEq, RunM.strip]
  simp [logAction, RunState.forgetCalls, RunState.mk.injEq,
    q1, q2, q3, q4, q5, q6, q7, q8]

lemma strip_getAddressesLoop (hnets : e₁.netStates = e₂.netStates) :
    ∀ (fuel i : Nat) {s t : RunState}, s.forgetCalls = t.forgetCalls →
      StripEq (getAddressesLoop e₁ i fuel s) (getAddressesLoop e₂ i fuel t) := by
  intro fuel
  induction fuel with
  | zero =>
    intro i s t hs
    simp only [StripEq, RunM.strip, getAddressesLoop]
    rw [hs]
  | succ f ih =>
    intro i s t hs
    unfold getAddressesLoop
    rw [hnets]
    have hs' : ({ s with calls := s.calls ++ [ClientCall.stateGet i] } : RunState).forgetCalls
        = ({ t with calls := t.calls ++ [ClientCall.stateGet i] } : RunState).forgetCalls := by
      cases s
      cases t
      simp only [RunState.forgetCalls, RunState.mk.injEq] at hs ⊢
      exact hs
    cases hn : e₂.netStates i with
    | error m =>
      simp only [StripEq, RunM.strip]
      have hq := hs'
      simp only [RunState.forgetCalls] at hq ⊢
      rw [hq]
    | ok net =>
      by_cases hfull : hasAllIpv4Addresses (containerIpv4Addresses net) = true
      · simp only [hfull, if_true, StripEq, RunM.strip]
        obtain ⟨q1, q2, q3, q4, q5, q6, q7, q8⟩ := forgetCalls_fields hs
        cases s
        cases t
        simp only [RunState.mk.injEq] at q1 q2 q3 q4 q5 q6 q7 q8
        simp [RunState.forgetCalls, RunState.mk.injEq,
          q1, q2, q3, q4, q5, q6, q7, q8]
      · rw [Bool.not_eq_true] at hfull
        simp only [hfull, Bool.false_eq_true, if_false]
        exact ih (i + 1) hs'

lemma strip_getAddresses (hnets : e₁.netStates = e₂.netStates)
    (hfuel : e₁.timeout = e₂.timeout)
    {s t : RunState} (hs : s.forgetCalls = t.forgetCalls) :
    StripEq (getAddresses e₁ s) (getAddresses e₂ t) := by
  unfold getAddresses
  rw [hfuel]
  exact strip_getAddressesLoop hnets e₂.timeout 0 hs

end StripSim

end LXD

namespace LXD

section StripHandlers

variable {e₁ e₂ : Env}

lemma strip_ok {s t : RunState} (hs : s.forgetCalls = t.forgetCalls) :
    StripEq (.ok s) (.ok t) := by
  simp only [StripEq, RunM.strip]
  rw [hs]

lemma strip_started (h₁ : e₁.checkMode = true) (h₂ : e₂.checkMode = false)
    (hok : e₂.callOk = allOkCalls) (hw : e₁.waitForIpv4 = e₂.waitForIpv4)
    (hnets : e₁.netStates = e₂.netStates) (hfuel : e₁.timeout = e₂.timeout)
    (spec : DesiredSpec) (oldState : String) (old : InstanceAttrs)
    {s t : RunState} (hs : s.forgetCalls = t.forgetCalls) :
    StripEq (started e₁ spec oldState old s) (started e₂ spec oldState old t) := by
  unfold started
  apply strip_step
  · by_cases hA : (oldState == "absent") = true
    · simp only [hA, if_true]
      apply strip_step
      · rw [createContainer_eq, createContainer_eq]
        exact strip_execCore h₁ h₂ hok _ _ _ _ hs
      · intro u v hu
        rw [startContainer_eq, startContainer_eq]
        exact strip_execCore h₁ h₂ hok _ _ _ _ hu
    · rw [Bool.not_eq_true] at hA
      simp only [hA, Bool.false_eq_true, if_false]
      apply strip_step
      · by_cases hF : (oldState == "frozen") = true
        · simp only [hF, if_true]
          rw [unfreezeContainer_eq, unfreezeContainer_eq]
          exact strip_execCore h₁ h₂ hok _ _ _ _ hs
        · rw [Bool.not_eq_true] at hF
          simp only [hF, Bool.false_eq_true, if_false]
          by_cases hS : (oldState == "stopped") = true
          · simp only [hS, if_true]
            rw [startContainer_eq, startContainer_eq]
            exact strip_execCore h₁ h₂ hok _ _ _ _ hs
          · rw [Bool.not_eq_true] at hS
            simp only [hS, Bool.false_eq_true, if_false]
            exact strip_ok hs
      · intro u v hu
        by_cases hN : needsToApplyContainerConfigs spec old = true
        · simp only [hN, if_true]
          exact strip_applyContainerConfigs h₁ h₂ hok spec old hu
        · rw [Bool.not_eq_true] at hN
          simp only [hN, Bool.false_eq_true, if_false]
          exact strip_ok hu
  · intro u v hu
    by_cases hW : e₁.waitForIpv4 = true
    · have hW2 : e₂.waitForIpv4 = true := by rw [← hw]; exact hW
      simp only [hW, hW2, if_true]
      exact strip_getAddresses hnets hfuel hu
    · rw [Bool.not_eq_true] at hW
      have hW2 : e₂.waitForIpv4 = false := by rw [← hw]; exact hW
      simp only [hW, hW2, Bool.false_eq_true, if_false]
      exact strip_ok hu

lemma strip_stopped (h₁ : e₁.checkMode = true) (h₂ : e₂.checkMode = false)
    (hok : e₂.callOk = allOkCalls)
    (spec : DesiredSpec) (oldState : String) (old : InstanceAttrs)
    {s t : RunState} (hs : s.forgetCalls = t.forgetCalls) :
    StripEq (stopped e₁ spec oldState old s) (stopped e₂ spec oldState old t) := by
  unfold stopped
  by_cases hA : (oldState == "absent") = true
  · simp only [hA, if_true]
    rw [createContainer_eq, createContainer_eq]
    exact strip_execCore h₁ h₂ hok _ _ _ _ hs
  · rw [Bool.not_eq_true] at hA
    simp only [hA, Bool.false_eq_true, if_false]
    by_cases hS : (oldState == "stopped") = true
    · simp only [hS, if_true]
      by_cases hN : needsToApplyContainerConfigs spec old = true
      · simp only [hN, if_true]
        apply strip_step
        · rw [startContainer_eq, startContainer_eq]
          exact strip_execCore h₁ h₂ hok _ _ _ _ hs
        · intro u v hu
          apply strip_step
          · exact strip_applyContainerConfigs h₁ h₂ hok spec old hu
          · intro u' v' hu'
            rw [stopContainer_eq, stopContainer_eq]
            exact strip_execCore h₁ h₂ hok _ _ _ _ hu'
      · rw [Bool.not_eq_true] at hN
        simp only [hN, Bool.false_eq_true, if_false]
        exact strip_ok hs
    · rw [Bool.not_eq_true] at hS
      simp only [hS, Bool.false_eq_true, if_false]
      apply strip_step
      · by_cases hF : (oldState == "frozen") = true
        · simp only [hF, if_true]
          rw [unfreezeContainer_eq, unfreezeContainer_eq]
          exact strip_execCore h₁ h₂ hok _ _ _ _ hs
        · rw [Bool.not_eq_true] at hF
          simp only [hF, Bool.false_eq_true, if_false]
          exact strip_ok hs
      · intro u v hu
        apply strip_step
        · by_cases hN : needsToApplyContainerConfigs spec old = true
          · simp only [hN, if_true]
            exact strip_applyContainerConfigs h₁ h₂ hok spec old hu
          · rw [Bool.not_eq_true] at hN
            simp only [hN, Bool.false_eq_true, if_false]
            exact strip_ok hu
        · intro u' v' hu'
          rw [stopContainer_eq, stopContainer_eq]
          exact strip_execCore h₁ h₂ hok _ _ _ _ hu'

lemma strip_restarted (h₁ : e₁.checkMode = true) (h₂ : e₂.checkMode = false)
    (hok : e₂.callOk = allOkCalls) (hw : e₁.waitForIpv4 = e₂.waitForIpv4)
    (hnets : e₁.netStates = e₂.netStates) (hfuel : e₁.timeout = e₂.timeout)
    (spec : DesiredSpec) (oldState : String) (old : InstanceAttrs)
    {s t : RunState} (hs : s.forgetCalls = t.forgetCalls) :
    StripEq (restarted e₁ spec oldState old s) (restarted e₂ spec oldState old t) := by
  unfold restarted
  apply strip_step
  · by_cases hA : (oldState == "absent") = true
    · simp only [hA, if_true]
      apply strip_step
      · rw [createContainer_eq, createContainer_eq]
        exact strip_execCore h₁ h₂ hok _ _ _ _ hs
      · intro u v hu
        rw [startContainer_eq, startContainer_eq]
        exact strip_execCore h₁ h₂ hok _ _ _ _ hu
    · rw [Bool.not_eq_true] at hA
      simp only [hA, Bool.false_eq_true, if_false]
      apply strip_step
      · by_cases hF : (oldState == "frozen") = true
        · simp only [hF, if_true]
          rw [unfreezeContainer_eq, unfreezeContainer_eq]
          exact strip_execCore h₁ h₂ hok _ _ _ _ hs
        · rw [Bool.not_eq_true] at hF
          simp only [hF, Bool.false_eq_true, if_false]
          exact strip_ok hs
      · intro u v hu
        apply strip_step
        · by_cases hN : needsToApplyContainerConfigs spec old = true
          · simp only [hN, if_true]
            exact strip_applyContainerConfigs h₁ h₂ hok spec old hu
          · rw [Bool.not_eq_true] at hN
            simp only [hN, Bool.false_eq_true, if_false]
            exact strip_ok hu
        · intro u' v' hu'
          rw [restartContainer_eq, restartContainer_eq]
          exact strip_execCore h₁ h₂ hok _ _ _ _ hu'
  · intro u v hu
    by_cases hW : e₁.waitForIpv4 = true
    · have hW2 : e₂.waitForIpv4 = true := by rw [← hw]; exact hW
      simp only [hW, hW2, if_true]
      exact strip_getAddresses hnets hfuel hu
    · rw [Bool.not_eq_true] at hW
      have hW2 : e₂.waitForIpv4 = false := by rw [← hw]; exact hW
      simp only [hW, hW2, Bool.false_eq_true, if_false]
      exact strip_ok hu

lemma strip_destroyed (h₁ : e₁.checkMode = true) (h₂ : e₂.checkMode = false)
    (hok : e₂.callOk = allOkCalls) (oldState : String)
    {s t : RunState} (hs : s.forgetCalls = t.forgetCalls) :
    StripEq (destroyed e₁ oldState s) (destroyed e₂ oldState t) := by
  unfold destroyed
  by_cases hA : (oldState != "absent") = true
  · simp only [hA, if_true]
    apply strip_step
    · by_cases hF : (oldState == "frozen") = true
      · simp only [hF, if_true]
        rw [unfreezeContainer_eq, unfreezeContainer_eq]
        exact strip_execCore h₁ h₂ hok _ _ _ _ hs
      · rw [Bool.not_eq_true] at hF
        simp only [hF, Bool.false_eq_true, if_false]
        exact strip_ok hs
    · intro u v hu
      apply strip_step
      · by_cases hS : (oldState != "stopped") = true
        · simp only [hS, if_true]
          rw [stopContainer_eq, stopContainer_eq]
          exact strip_execCore h₁ h₂ hok _ _ _ _ hu
        · rw [Bool.not_eq_true] at hS
          simp only [hS, Bool.false_eq_true, if_false]
          exact strip_ok hu
      · intro u' v' hu'
        rw [deleteContainer_eq, deleteContainer_eq]
        exact strip_execCore h₁ h₂ hok _ _ _ _ hu'
  · rw [Bool.not_eq_true] at hA
    simp only [hA, Bool.false_eq_true, if_false]
    exact strip_ok hs

lemma strip_frozen (h₁ : e₁.checkMode = true) (h₂ : e₂.checkMode = false)
    (hok : e₂.callOk = allOkCalls)
    (spec : DesiredSpec) (oldState : String) (old : InstanceAttrs)
    {s t : RunState} (hs : s.forgetCalls = t.forgetCalls) :
    StripEq (frozen e₁ spec oldState old s) (frozen e₂ spec oldState old t) := by
  unfold frozen
  by_cases hA : (oldState == "absent") = true
  · simp only [hA, if_true]
    apply strip_step
    · rw [createContainer_eq, createContainer_eq]
      exact strip_execCore h₁ h₂ hok _ _ _ _ hs
    · intro u v hu
      apply strip_step
      · rw [startContainer_eq, startContainer_eq]
        exact strip_execCore h₁ h₂ hok _ _ _ _ hu
      · intro u' v' hu'
        rw [freezeContainer_eq, freezeContainer_eq]
        exact strip_execCore h₁ h₂ hok _ _ _ _ hu'
  · rw [Bool.not_eq_true] at hA
    simp only [hA, Bool.false_eq_true, if_false]
    apply strip_step
    · by_cases hS : (oldState == "stopped") = true
      · simp only [hS, if_true]
        rw [startContainer_eq, startContainer_eq]
        exact strip_execCore h₁ h₂ hok _ _ _ _ hs
      · rw [Bool.not_eq_true] at hS
        simp only [hS, Bool.false_eq_true, if_false]
        exact strip_ok hs
    · intro u v hu
      apply strip_step
      · by_cases hN : needsToApplyContainerConfigs spec old = true
        · simp only [hN, if_true]
          exact strip_applyContainerConfigs h₁ h₂ hok spec old hu
        · rw [Bool.not_eq_true] at hN
          simp only [hN, Bool.false_eq_true, if_false]
          exact strip_ok hu
      · intro u' v' hu'
        rw [freezeContainer_eq, freezeContainer_eq]
        exact strip_execCore h₁ h₂ hok _ _ _ _ hu'

lemma strip_dispatch (h₁ : e₁.checkMode = true) (h₂ : e₂.checkMode = false)
    (hok : e₂.callOk = allOkCalls) (hw : e₁.waitForIpv4 = e₂.waitForIpv4)
    (hnets : e₁.netStates = e₂.netStates) (hfuel : e₁.timeout = e₂.timeout)
    (spec : DesiredSpec) (oldState : String) (old : InstanceAttrs) (st : AnsibleState)
    {s t : RunState} (hs : s.forgetCalls = t.forgetCalls) :
    StripEq (dispatch e₁ spec oldState old st s) (dispatch e₂ spec oldState old st t) := by
  cases st with
  | started => exact strip_started h₁ h₂ hok hw hnets hfuel spec oldState old hs
  | stopped => exact strip_stopped h₁ h₂ hok spec oldState old hs
  | restarted => exact strip_restarted h₁ h₂ hok hw hnets hfuel spec oldState old hs
  | absent => exact strip_destroyed h₁ h₂ hok oldState hs
  | frozen => exact strip_frozen h₁ h₂ hok spec oldState old hs

lemma strip_runE (h₁ : e₁.checkMode = true) (h₂ : e₂.checkMode = false)
    (hok : e₂.callOk = allOkCalls) (hw : e₁.waitForIpv4 = e₂.waitForIpv4)
    (hnets : e₁.netStates = e₂.netStates) (hfuel : e₁.timeout = e₂.timeout)
    (hauth : e₁.auth = e₂.auth) (hfetch : e₁.fetchOutcome = e₂.fetchOutcome)
    (spec : DesiredSpec) (st : AnsibleState) :
    StripEq (runE e₁ spec st) (runE e₂ spec st) := by
  unfold runE
  apply strip_step
  · rw [hauth]
    cases e₂.auth with
    | none => exact strip_ok rfl
    | some o =>
      cases o with
      | ok u => exact strip_ok rfl
      | error m =>
        simp only [StripEq, RunM.strip]
  · intro u v hu
    rw [hfetch]
    cases hf : e₂.fetchOutcome with
    | error m =>
      simp only [StripEq, RunM.strip]
      rw [hu]
    | ok om =>
      apply strip_dispatch h₁ h₂ hok hw hnets hfuel
      cases u
      cases v
      simp only [RunState.forgetCalls, RunState.mk.injEq] at hu ⊢
      exact ⟨hu.1, hu.2.1, trivial, trivial, trivial, trivial, trivial,
        hu.2.2.2.2.2.2.2.1, hu.2.2.2.2.2.2.2.2⟩

end StripHandlers

end LXD

namespace LXD

lemma execCore_check (env : Env) (c : ClientCall) (a : String) (o : Op) (s : RunState) :
    execCore env true c a o s = .ok (logAction s a o) := rfl

lemma applyContainerConfigs_check (env : Env) (hcm : env.checkMode = true)
    (spec : DesiredSpec) (old : InstanceAttrs) (s : RunState) :
    applyContainerConfigs env spec old s
      = .ok (logAction { s with
            diffBeforeInstance := mergedBeforeInstance spec old s.diffBeforeInstance,
            diffAfterInstance := some (applyBodyJson spec old) }
          "apply_container_configs" .applyConfig) := by
  unfold applyContainerConfigs step
  rw [hcm]
  simp

lemma getAddressesLoop_nonmutating (env : Env) :
    ∀ (fuel i : Nat) (s : RunState), (∀ c ∈ s.calls, c.isMutating = false) →
      StepInv (fun u => ∀ c ∈ u.calls, c.isMutating = false)
              (fun u => ∀ c ∈ u.calls, c.isMutating = false)
              (getAddressesLoop env i fuel s) := by
  intro fuel
  induction fuel with
  | zero => intro i s hs; exact hs
  | succ f ih =>
    intro i s hs
    have hs' : ∀ c ∈ s.calls ++ [ClientCall.stateGet i], c.isMutating = false := by
      intro c hc
      rcases List.mem_append.mp hc with h | h
      · exact hs c h
      · rw [List.mem_singleton.mp h]
        rfl
    unfold getAddressesLoop
    cases hn : env.netStates i with
    | error m => exact hs'
    | ok net =>
      by_cases hfull : hasAllIpv4Addresses (containerIpv4Addresses net) = true
      · simp only [hfull, if_true]
        exact hs'
      · rw [Bool.not_eq_true] at hfull
        simp only [hfull, Bool.false_eq_true, if_false]
        exact ih (i + 1) _ hs'

lemma check_mode_calls_nonmutating (env : Env) (hcm : env.checkMode = true)
    (spec : DesiredSpec) (st : AnsibleState) :
    ∀ c ∈ (run env spec st).callsOf, c.isMutating = false := by
  have h := runE_inv (fun u => ∀ c ∈ u.calls, c.isMutating = false)
    (fun u => ∀ c ∈ u.calls, c.isMutating = false) env spec st
    (by intro m hm c hc; exact absurd hc (List.not_mem_nil c))
    (by intro m hm c hc; exact absurd hc (List.not_mem_nil c))
    (by intro om hf c hc; exact absurd hc (List.not_mem_nil c))
    ?hexec ?happly ?haddr
  case hexec =>
    intro c a o ha s hs
    rw [hcm, execCore_check]
    exact hs
  case happly =>
    intro om hf hna s hs
    rw [applyContainerConfigs_check env hcm]
    exact hs
  case haddr =>
    intro s hs
    unfold getAddresses
    exact getAddressesLoop_nonmutating env env.timeout 0 s hs
  unfold run
  cases hr : runE env spec st with
  | ok s =>
    rw [hr] at h
    simpa [RunResult.callsOf] using h
  | error e =>
    obtain ⟨m, s⟩ := e
    rw [hr] at h
    simpa [RunResult.callsOf] using h

lemma run_forgetCalls_eq {e₁ e₂ : Env} (h₁ : e₁.checkMode = true)
    (h₂ : e₂.checkMode = false) (hok : e₂.callOk = allOkCalls)
    (hw : e₁.waitForIpv4 = e₂.waitForIpv4) (hnets : e₁.netStates = e₂.netStates)
    (hfuel : e₁.timeout = e₂.timeout) (hauth : e₁.auth = e₂.auth)
    (hfetch : e₁.fetchOutcome = e₂.fetchOutcome)
    (spec : DesiredSpec) (st : AnsibleState) :
    (run e₁ spec st).forgetCalls = (run e₂ spec st).forgetCalls := by
  have h := strip_runE h₁ h₂ hok hw hnets hfuel hauth hfetch spec st
  unfold run
  cases hr1 : runE e₁ spec st with
  | ok s =>
    cases hr2 : runE e₂ spec st with
    | ok t =>
      rw [hr1, hr2] at h
      simp only [StripEq, RunM.strip] at h
      injection h with h'
      obtain ⟨q1, q2, q3, q4, q5, q6, q7, q8⟩ := forgetCalls_fields h'
      simp [RunResult.forgetCalls, diffOfState, q1, q2, q3, q4, q5, q6, q7, q8]
    | error e =>
      obtain ⟨m, t⟩ := e
      rw [hr1, hr2] at h
      simp only [StripEq, RunM.strip] at h
      exact absurd h (by simp)
  | error e =>
    obtain ⟨m, s⟩ := e
    cases hr2 : runE e₂ spec st with
    | ok t =>
      rw [hr1, hr2] at h
      simp only [StripEq, RunM.strip] at h
      exact absurd h (by simp)
    | error e2 =>
      obtain ⟨m2, t⟩ := e2
      rw [hr1, hr2] at h
      simp only [StripEq, RunM.strip] at h
      injection h with hp
      rw [Prod.mk.injEq] at hp
      obtain ⟨hmm, hss⟩ := hp
      obtain ⟨q1, q2, q3, q4, q5, q6, q7, q8⟩ := forgetCalls_fields hss
      simp [RunResult.forgetCalls, diffOfState, hmm, q1, q2, q3, q4, q5, q6, q7, q8]

end LXD

namespace LXD

lemma changedOf_run (env : Env) (spec : DesiredSpec) (st : AnsibleState) :
    (run env spec st).changedOf = !(run env spec st).actionsOf.isEmpty := by
  unfold run
  cases runE env spec st with
  | ok s =>
    cases hs : s.actions <;>
      simp [RunResult.changedOf, RunResult.actionsOf, hs]
  | error e =>
    obtain ⟨m, s⟩ := e
    cases hs : s.actions <;>
      simp [RunResult.changedOf, RunResult.actionsOf, hs]

lemma dictLookup_map_replace (d : Dict) (k v : String) (h : dictMem d k = true) :
    dictLookup (d.map (fun kv => if kv.1 = k then (k, v) else kv)) k = some v := by
  induction d with
  | nil => simp [dictMem] at h
  | cons kv rest ih =>
    by_cases hk : kv.1 = k
    · simp [dictLookup, hk]
    · have hr : dictMem rest k = true := by
        simpa [dictMem, hk] using h
      simp [dictLookup, hk, ih hr]

lemma dictLookup_map_replace_ne (d : Dict) (k v k' : String) (h : k' ≠ k) :
    dictLookup (d.map (fun kv => if kv.1 = k then (k, v) else kv)) k'
      = dictLookup d k' := by
  induction d with
  | nil => simp
  | cons kv rest ih =>
    by_cases hk : kv.1 = k
    · simp [dictLookup, hk, Ne.symm h, ih]
    · simp [dictLookup, hk, ih]

lemma dictLookup_append_single (d : Dict) (k v : String) :
    dictLookup (d ++ [(k, v)]) k = (dictLookup d k).getD v := by
  induction d with
  | nil => simp [dictLookup]
  | cons kv rest ih =>
    by_cases hk : kv.1 = k <;> simp [dictLookup, hk, ih]

lemma dictLookup_append_single_ne (d : Dict) (k v k' : String) (h : k' ≠ k) :
    dictLookup (d ++ [(k, v)]) k' = dictLookup d k' := by
  induction d with
  | nil => simp [dictLookup, Ne.symm h]
  | cons kv rest ih =>
    by_cases hk : kv.1 = k' <;> simp [dictLookup, hk, ih]

lemma dictLookup_insert_self (d : Dict) (k v : String) :
    dictLookup (dictInsert d k v) k = some v := by
  unfold dictInsert
  by_cases h : dictMem d k = true
  · simp [h, dictLookup_map_replace d k v h]
  · have hn : dictLookup d k = none := by
      induction d with
      | nil => simp [dictLookup]
      | cons kv rest ih =>
        have hk : ¬(kv.1 = k) := by
          intro hh
          exact h (by simp [dictMem, hh])
        have hr : ¬(dictMem rest k = true) := by
          intro hh
          exact h (by simp [dictMem] at hh ⊢; exact Or.inr (by simpa [dictMem] using hh))
        simp [dictLookup, hk, ih hr]
    simp [h, dictLookup_append_single, hn]

lemma dictLookup_insert_ne (d : Dict) (k v k' : String) (h : k' ≠ k) :
    dictLookup (dictInsert d k v) k' = dictLookup d k' := by
  unfold dictInsert
  by_cases hm : dictMem d k = true <;>
    simp [hm, dictLookup_map_replace_ne d k v k' h,
      dictLookup_append_single_ne d k v k' h]

lemma dictLookup_none_of_not_key (d : Dict) (k : String)
    (h : k ∉ d.map Prod.fst) : dictLookup d k = none := by
  induction d with
  | nil => simp [dictLookup]
  | cons kv rest ih =>
    rw [List.map_cons, List.mem_cons] at h
    push_neg at h
    have h1 : ¬(kv.1 = k) := fun hh => h.1 hh.symm
    simp [dictLookup, h1, ih h.2]

lemma dictLookup_mergeConfig (old d : Dict) (k : String)
    (hnd : (d.map Prod.fst).Nodup) :
    dictLookup (mergeConfig old d) k
      = match dictLookup d k with
        | some v => some v
        | none => dictLookup old k := by
  induction d generalizing old with
  | nil => simp [mergeConfig, dictLookup]
  | cons kv rest ih =>
    have hnd' : (rest.map Prod.fst).Nodup := (List.nodup_cons.mp hnd).2
    have hk1 : kv.1 ∉ rest.map Prod.fst := (List.nodup_cons.mp hnd).1
    have hm : mergeConfig old (kv :: rest) = mergeConfig (dictInsert old kv.1 kv.2) rest := rfl
    rw [hm, ih _ hnd']
    by_cases hk : kv.1 = k
    · subst hk
      have hr : dictLookup rest kv.1 = none := dictLookup_none_of_not_key rest kv.1 hk1
      simp [hr, dictLookup, dictLookup_insert_self]
    · simp [dictLookup, hk, dictLookup_insert_ne old kv.1 kv.2 k (fun hh => hk hh.symm)]

lemma matchNeAux (o : Option String) (w : String) :
    (match o with | none => true | some v => decide (v ≠ w)) = true ↔ o ≠ some w := by
  cases o <;> simp

lemma configNeedsChange_iff (d old : Dict) :
    configNeedsChange d old = true
      ↔ ∃ kv, kv ∈ d ∧ dictLookup (filterVolatile old) kv.1 ≠ some kv.2 := by
  unfold configNeedsChange
  rw [List.any_eq_true]
  constructor
  · rintro ⟨kv, hmem, hkv⟩
    exact ⟨kv, hmem, (matchNeAux _ _).mp hkv⟩
  · rintro ⟨kv, hmem, hkv⟩
    exact ⟨kv, hmem, (matchNeAux _ _).mpr hkv⟩

end LXD

namespace LXD

/-- Claim C1: for desired state started the planner produces exactly the
ordered action lists of the transition table (Absent: create then start;
Frozen: unfreeze then apply-config only if needed; Stopped: start then
apply-config only if needed; Running: apply-config only if needed), and
the address wait runs after these actions iff wait-for-address was
requested (witnessed by the state fetch trailing the issued requests). -/
theorem c1_started_transition_table (spec : DesiredSpec) (a : InstanceAttrs) (wait : Bool) :
    ((run (mkEnv false wait 1 none allOkCalls (fun _ => .ok goodNet)) spec .started).opsOf
        = specTableStarted none (needsToApplyContainerConfigs spec a)
      ∧ (run (mkEnv false wait 1 none allOkCalls (fun _ => .ok goodNet)) spec .started).callsOf
        = [ClientCall.createPost none, ClientCall.changeState "start" false]
            ++ (if wait then [ClientCall.stateGet 0] else []))
    ∧ ((run (mkEnv false wait 1 (some ⟨.frozen, a⟩) allOkCalls (fun _ => .ok goodNet)) spec .started).opsOf
        = specTableStarted (some .frozen) (needsToApplyContainerConfigs spec a)
      ∧ (run (mkEnv false wait 1 (some ⟨.frozen, a⟩) allOkCalls (fun _ => .ok goodNet)) spec .started).callsOf
        = ([ClientCall.changeState "unfreeze" false]
            ++ (if needsToApplyContainerConfigs spec a then
                  [ClientCall.putConfig (applyBodyJson spec a)] else []))
            ++ (if wait then [ClientCall.stateGet 0] else []))
    ∧ ((run (mkEnv false wait 1 (some ⟨.stopped, a⟩) allOkCalls (fun _ => .ok goodNet)) spec .started).opsOf
        = specTableStarted (some .stopped) (needsToApplyContainerConfigs spec a)
      ∧ (run (mkEnv false wait 1 (some ⟨.stopped, a⟩) allOkCalls (fun _ => .ok goodNet)) spec .started).callsOf
        = ([ClientCall.changeState "start" false]
            ++ (if needsToApplyContainerConfigs spec a then
                  [ClientCall.putConfig (applyBodyJson spec a)] else []))
            ++ (if wait then [ClientCall.stateGet 0] else []))
    ∧ ((run (mkEnv false wait 1 (some ⟨.running, a⟩) allOkCalls (fun _ => .ok goodNet)) spec .started).opsOf
        = specTableStarted (some .running) (needsToApplyContainerConfigs spec a)
      ∧ (run (mkEnv false wait 1 (some ⟨.running, a⟩) allOkCalls (fun _ => .ok goodNet)) spec .started).callsOf
        = (if needsToApplyContainerConfigs spec a then
            [ClientCall.putConfig (applyBodyJson spec a)] else [])
            ++ (if wait then [ClientCall.stateGet 0] else [])) := by
  cases h : needsToApplyContainerConfigs spec a <;> cases wait <;>
    simp [run, runE, dispatch, started, createContainer, startContainer,
      unfreezeContainer, applyContainerConfigs, changeState, issue, step,
      logAction, getAddresses, getAddressesLoop, mkEnv, allOkCalls,
      containerJsonToModuleState, statusToState, specTableStarted, h,
      AnsibleState.toString, goodNet, containerIpv4Addresses,
      hasAllIpv4Addresses, RunResult.opsOf, RunResult.callsOf, diffOfState]

/-- Claim C2 counterexample: in check mode with the address wait
requested, the waiter is not skipped: the run still performs a read-only
state fetch (the claim says it performs no polling and no state
fetches in dry-run). -/
theorem c2_check_mode_still_polls :
    (run (mkEnv true true 1 (some ⟨.running, attrsVol⟩) allOkCalls (fun _ => .ok goodNet))
        emptySpec .started).callsOf = [ClientCall.stateGet 0]
    ∧ [ClientCall.stateGet 0] ≠ ([] : List ClientCall) :=
  ⟨rfl, by decide⟩

/-- Claim C2 as amended: in check mode no mutating request is issued
(every request in the trace is a read-only state fetch), and the run's
observables (changed, action log, operations, diff, addresses) are
exactly those of the corresponding real run against an accepting client;
the address waiter however still runs and polls. -/
theorem c2_check_mode_frame (wait force : Bool) (fuel : Nat) (tgt : Option String)
    (auth : Option (Except String Unit)) (fetch : Except String (Option Meta))
    (cok : ClientCall → Except String Unit) (nets : Nat → Except String Network)
    (spec : DesiredSpec) (st : AnsibleState) :
    (∀ c ∈ (run ⟨true, wait, force, fuel, tgt, auth, fetch, cok, nets⟩ spec st).callsOf,
        c.isMutating = false)
    ∧ (run ⟨true, wait, force, fuel, tgt, auth, fetch, cok, nets⟩ spec st).forgetCalls
        = (run ⟨false, wait, force, fuel, tgt, auth, fetch, allOkCalls, nets⟩ spec st).forgetCalls :=
  ⟨check_mode_calls_nonmutating _ rfl spec st,
   @run_forgetCalls_eq ⟨true, wait, force, fuel, tgt, auth, fetch, cok, nets⟩
     ⟨false, wait, force, fuel, tgt, auth, fetch, allOkCalls, nets⟩
     rfl rfl rfl rfl rfl rfl rfl rfl spec st⟩

theorem c2_check_mode_frame_witness :
    ClientCall.isMutating (ClientCall.stateGet 0) = false
    ∧ (run ⟨true, true, false, 1, none, none, Except.ok (some ⟨.running, attrsVol⟩),
          allOkCalls, fun _ => Except.ok goodNet⟩ emptySpec .started).forgetCalls
        = (run ⟨false, true, false, 1, none, none, Except.ok (some ⟨.running, attrsVol⟩),
            allOkCalls, fun _ => Except.ok goodNet⟩ emptySpec .started).forgetCalls :=
  ⟨(c2_check_mode_frame true false 1 none none (Except.ok (some ⟨.running, attrsVol⟩))
      allOkCalls (fun _ => Except.ok goodNet) emptySpec .started).1
      (ClientCall.stateGet 0) (List.mem_singleton.mpr rfl),
   (c2_check_mode_frame true false 1 none none (Except.ok (some ⟨.running, attrsVol⟩))
      allOkCalls (fun _ => Except.ok goodNet) emptySpec .started).2⟩

/-- Claim C3 counterexample: the deadline elapses (fuel exhausted) while
the only device still has no IPv4 address, yet the run exits
successfully (no failure, no timeout message) with no addresses
surfaced — the claim says the run terminates as a failure. -/
theorem c3_timeout_run_succeeds :
    (run (mkEnv false true 2 (some ⟨.running, attrsVol⟩) allOkCalls (fun _ => .ok badNet))
        emptySpec .started).isOk = true
    ∧ (run (mkEnv false true 2 (some ⟨.running, attrsVol⟩) allOkCalls (fun _ => .ok badNet))
        emptySpec .started).addressesOf = none :=
  ⟨rfl, rfl⟩

/-- Claim C3 as amended: a partially populated address mapping is never
surfaced (any surfaced mapping passes the all-devices readiness check),
and when every poll sees an incomplete network the run completes
successfully with no addresses at all once the deadline elapses; the
message "timeout for getting IPv4 addresses" is raised only when a
client exception occurs during polling. -/
theorem c3_timeout_behavior :
    (∀ (env : Env) (spec : DesiredSpec) (st : AnsibleState) (chg : Bool) (os : String)
        (acts : List String) (ops : List Op) (d : Diff) (a : Addrs)
        (calls : List ClientCall),
        run env spec st = .ok chg os acts ops d (some a) calls →
        hasAllIpv4Addresses a = true)
    ∧ (∀ (om : Option Meta) (spec : DesiredSpec) (st : AnsibleState) (wait : Bool)
        (fuel : Nat) (nets : Nat → Network),
        (∀ j, hasAllIpv4Addresses (containerIpv4Addresses (nets j)) = false) →
        (run (mkEnv false wait fuel om allOkCalls (fun j => .ok (nets j))) spec st).isOk = true
        ∧ (run (mkEnv false wait fuel om allOkCalls (fun j => .ok (nets j))) spec st).addressesOf
            = none) :=
  ⟨fun env spec st chg os acts ops d a calls h =>
      run_no_partial_addresses env spec st chg os acts ops d a calls h,
   fun om spec st wait fuel nets h =>
      run_timeout_returns_ok om spec st wait fuel nets h⟩

theorem c3_timeout_behavior_witness :
    hasAllIpv4Addresses [("eth0", ["10.0.0.5"])] = true
    ∧ ((run (mkEnv false true 2 (some ⟨.running, attrsVol⟩) allOkCalls
          (fun _ => .ok badNet)) emptySpec .started).isOk = true
      ∧ (run (mkEnv false true 2 (some ⟨.running, attrsVol⟩) allOkCalls
          (fun _ => .ok badNet)) emptySpec .started).addressesOf = none) :=
  ⟨c3_timeout_behavior.1 (mkEnv false true 1 (some ⟨.running, attrsVol⟩) allOkCalls
      (fun _ => .ok goodNet)) emptySpec .started false "started" [] []
      ⟨some "started", some (some attrsVol), some "started", none⟩
      [("eth0", ["10.0.0.5"])] [ClientCall.stateGet 0] rfl,
   c3_timeout_behavior.2 (some ⟨.running, attrsVol⟩) emptySpec .started true 2
      (fun _ => badNet) (fun _ => rfl)⟩

/-- Claim C4: the code at the failing input.  The observed config carries
the key `volatile.idmap`; the diff decision does exclude it (pinning
`limits.cpu` to its observed value yields no change), but the
before-snapshot in the result diff retains the volatile key unfiltered,
because the comprehension tests `isinstance(section, dict)` on the
section key — a string — so the filtering branch is dead. -/
theorem c4_before_snapshot_keeps_volatile :
    (run (mkEnv false false 1 (some ⟨.running, attrsVol⟩) allOkCalls (fun _ => .ok goodNet))
        specCpu .started).diffOf.beforeInstance = some (some attrsVol)
    ∧ dictLookup attrsVol.config "volatile.idmap" = some "x"
    ∧ needsToChangeContainerConfig specCpu attrsVol .config = false
    ∧ (run (mkEnv false false 1 (some ⟨.running, attrsVol⟩) allOkCalls (fun _ => .ok goodNet))
        specCpu .started).actionsOf = [] :=
  ⟨rfl, rfl, rfl, rfl⟩

/-- Claim C5: the code at the failing input.  Destroying a frozen
instance executes unfreeze, stop, delete in that order and reports
changed, but the logged name of the unfreeze step is the misspelt
string "unfreez" (the API action issued is "unfreeze"), not the
"unfreeze" the claim states. -/
theorem c5_destroy_frozen_logs_typo :
    (run (mkEnv false false 1 (some ⟨.frozen, attrsVol⟩) allOkCalls (fun _ => .ok goodNet))
        emptySpec .absent).actionsOf = ["unfreez", "stop", "delete"]
    ∧ (run (mkEnv false false 1 (some ⟨.frozen, attrsVol⟩) allOkCalls (fun _ => .ok goodNet))
        emptySpec .absent).opsOf = [Op.unfreeze, Op.stop, Op.delete]
    ∧ (run (mkEnv false false 1 (some ⟨.frozen, attrsVol⟩) allOkCalls (fun _ => .ok goodNet))
        emptySpec .absent).changedOf = true
    ∧ "unfreez" ≠ "unfreeze" :=
  ⟨rfl, rfl, rfl, by decide⟩

/-- Claim C6 counterexample: an instance observed Frozen with desired
state frozen and no config diff is re-frozen anyway — the action log is
["freeze"] and changed is reported true, refuting idempotence for every
matching state. -/
theorem c6_frozen_refreeze :
    needsToApplyContainerConfigs emptySpec attrsVol = false
    ∧ (run (mkEnv false false 1 (some ⟨.frozen, attrsVol⟩) allOkCalls (fun _ => .ok goodNet))
        emptySpec .frozen).actionsOf = ["freeze"]
    ∧ (run (mkEnv false false 1 (some ⟨.frozen, attrsVol⟩) allOkCalls (fun _ => .ok goodNet))
        emptySpec .frozen).changedOf = true :=
  ⟨rfl, rfl, rfl⟩

/-- Claim C6 as amended: reconciliation is idempotent for desired states
started, stopped and absent — an instance already in the desired state
with no config diff yields an empty action log and changed=false — and
changed always equals non-emptiness of the action log; for desired
state frozen the code unconditionally re-issues freeze, so the frozen
case is excluded. -/
theorem c6_idempotence_by_state (spec : DesiredSpec) (a : InstanceAttrs) (wait : Bool)
    (h : needsToApplyContainerConfigs spec a = false) :
    ((run (mkEnv false wait 1 (some ⟨.running, a⟩) allOkCalls (fun _ => .ok goodNet))
        spec .started).actionsOf = []
      ∧ (run (mkEnv false wait 1 (some ⟨.running, a⟩) allOkCalls (fun _ => .ok goodNet))
          spec .started).changedOf = false)
    ∧ ((run (mkEnv false wait 1 (some ⟨.stopped, a⟩) allOkCalls (fun _ => .ok goodNet))
        spec .stopped).actionsOf = []
      ∧ (run (mkEnv false wait 1 (some ⟨.stopped, a⟩) allOkCalls (fun _ => .ok goodNet))
          spec .stopped).changedOf = false)
    ∧ ((run (mkEnv false wait 1 none allOkCalls (fun _ => .ok goodNet))
        spec .absent).actionsOf = []
      ∧ (run (mkEnv false wait 1 none allOkCalls (fun _ => .ok goodNet))
          spec .absent).changedOf = false)
    ∧ (∀ (env : Env) (st : AnsibleState),
        (run env spec st).changedOf = !(run env spec st).actionsOf.isEmpty) := by
  refine ⟨?_, ?_, ?_, fun env st => changedOf_run env spec st⟩ <;>
    cases wait <;>
      simp [run, runE, dispatch, started, stopped, destroyed, createContainer,
        startContainer, unfreezeContainer, applyContainerConfigs, changeState,
        issue, step, logAction, getAddresses, getAddressesLoop, mkEnv,
        allOkCalls, containerJsonToModuleState, statusToState, h,
        AnsibleState.toString, goodNet, containerIpv4Addresses,
        hasAllIpv4Addresses, RunResult.actionsOf, RunResult.changedOf]

theorem c6_idempotence_by_state_witness :
    (run (mkEnv false false 1 (some ⟨.running, attrsVol⟩) allOkCalls (fun _ => .ok goodNet))
        emptySpec .started).actionsOf = []
    ∧ (run (mkEnv false false 1 (some ⟨.running, attrsVol⟩) allOkCalls (fun _ => .ok goodNet))
        emptySpec .started).changedOf = false :=
  (c6_idempotence_by_state emptySpec attrsVol false rfl).1

/-- Claim C7: the config pushed by apply-config is the per-key superset
merge of observed and desired — desired keys overwrite or extend the
observed map, keys absent from the desired config keep their observed
binding, and no key is deleted — and the config attribute needs a change
iff some desired key is missing from the volatile-filtered observed map
or bound to a different value there. -/
theorem c7_config_merge_superset :
    (∀ (old d : Dict) (k : String), (d.map Prod.fst).Nodup →
        dictLookup (mergeConfig old d) k
          = match dictLookup d k with
            | some v => some v
            | none => dictLookup old k)
    ∧ (∀ (d old : Dict),
        configNeedsChange d old = true
          ↔ ∃ kv, kv ∈ d ∧ dictLookup (filterVolatile old) kv.1 ≠ some kv.2)
    ∧ (∀ (spec : DesiredSpec) (oldA : InstanceAttrs) (d : Dict),
        spec.config = some d → configNeedsChange d oldA.config = true →
        (applyBodyJson spec oldA).config = mergeConfig oldA.config d) := by
  refine ⟨fun old d k h => dictLookup_mergeConfig old d k h,
    fun d old => configNeedsChange_iff d old,
    fun spec oldA d hc hn => ?_⟩
  simp [applyBodyJson, hc, hn]

theorem c7_config_merge_superset_witness :
    (dictLookup (mergeConfig [("volatile.idmap", "x"), ("limits.cpu", "1")]
        [("limits.cpu", "2")]) "limits.cpu"
      = match dictLookup [("limits.cpu", "2")] "limits.cpu" with
        | some v => some v
        | none => dictLookup [("volatile.idmap", "x"), ("limits.cpu", "1")] "limits.cpu")
    ∧ (configNeedsChange [("limits.cpu", "2")] attrsVol.config = true
        ↔ ∃ kv, kv ∈ ([("limits.cpu", "2")] : Dict)
            ∧ dictLookup (filterVolatile attrsVol.config) kv.1 ≠ some kv.2)
    ∧ (applyBodyJson specCpu2 attrsVol).config
        = mergeConfig attrsVol.config [("limits.cpu", "2")] :=
  ⟨c7_config_merge_superset.1 [("volatile.idmap", "x"), ("limits.cpu", "1")]
      [("limits.cpu", "2")] "limits.cpu" (by decide),
   c7_config_merge_superset.2.1 [("limits.cpu", "2")] attrsVol.config,
   c7_config_merge_superset.2.2 specCpu2 attrsVol [("limits.cpu", "2")] rfl rfl⟩

/-- Claim C8: when a control-plane call fails mid-plan (here: the stop
request while destroying a frozen instance), no further planned action
is executed (no delete is issued or logged), and the structured failure
carries the failure's message verbatim, changed computed as
non-emptiness of the partial action log, the partial log itself, and the
partial before/after diff; in general changed always equals
non-emptiness of the action log. -/
theorem c8_failure_partial_report (m : String) (force : Bool) (a : InstanceAttrs)
    (spec : DesiredSpec) :
    (run { checkMode := false, waitForIpv4 := false, forceStop := force, timeout := 1,
           target := none, auth := none,
           fetchOutcome := .ok (some ⟨.frozen, a⟩),
           callOk := fun c => match c with
             | .changeState act _ => if act = "stop" then .error m else .ok ()
             | _ => .ok (),
           netStates := fun _ => .ok goodNet } spec .absent
      = .fail m true ["unfreez"] [.unfreeze]
          { beforeState := some "frozen",
            beforeInstance := some (some (beforeInstanceSnapshot a)),
            afterState := some "absent", afterInstance := none }
          [ClientCall.changeState "unfreeze" false, ClientCall.changeState "stop" force])
    ∧ (∀ (env : Env) (spec' : DesiredSpec) (st : AnsibleState),
        (run env spec' st).changedOf = !(run env spec' st).actionsOf.isEmpty) := by
  refine ⟨?_, fun env spec' st => changedOf_run env spec' st⟩
  simp [run, runE, dispatch, destroyed, unfreezeContainer, stopContainer,
    deleteContainer, changeState, issue, step, logAction,
    containerJsonToModuleState, statusToState, AnsibleState.toString,
    diffOfState, beforeInstanceSnapshot, sectionKeyIsDict]

/-- Claim C9 counterexample: a successful run that creates and starts an
absent instance leaves the diff's after part without any instance
attributes (only the state), refuting "fully populated on both sides for
every run". -/
theorem c9_missing_after_instance :
    (run (mkEnv false false 1 none allOkCalls (fun _ => .ok goodNet))
        emptySpec .started).diffOf.afterInstance = none
    ∧ (run (mkEnv false false 1 none allOkCalls (fun _ => .ok goodNet))
        emptySpec .started).isOk = true
    ∧ (run (mkEnv false false 1 none allOkCalls (fun _ => .ok goodNet))
        emptySpec .started).actionsOf = ["create", "start"] :=
  ⟨rfl, rfl, rfl⟩

theorem c9_diff_population_witness :
    (some "started" : Option String)
        = some (containerJsonToModuleState (some ⟨.running, attrsVol⟩))
    ∧ (some "started" : Option String) = some (AnsibleState.started.toString)
    ∧ ((some ({ attrsVol with config := [("volatile.idmap", "x"), ("limits.cpu", "2")] })
          : Option InstanceAttrs).isSome = true
        ↔ "apply_container_configs" ∈ ["apply_container_configs"])
    ∧ ("apply_container_configs" ∉ ["apply_container_configs"] →
        (some (some ({ attrsVol with
            config := [("volatile.idmap", "x"), ("limits.cpu", "2")] }))
            : Option (Option InstanceAttrs))
          = some ((some (⟨.running, attrsVol⟩ : Meta)).map
              (fun m => beforeInstanceSnapshot m.attrs)))
    ∧ ("apply_container_configs" ∈ ["apply_container_configs"] →
        (some (some ({ attrsVol with
            config := [("volatile.idmap", "x"), ("limits.cpu", "2")] }))
            : Option (Option InstanceAttrs))
          = mergedBeforeInstance specCpu2
              (((some (⟨.running, attrsVol⟩ : Meta)).map Meta.attrs).getD defaultAttrs)
              (some ((some (⟨.running, attrsVol⟩ : Meta)).map
                (fun m => beforeInstanceSnapshot m.attrs)))) :=
  c9_diff_population
    (mkEnv false false 1 (some ⟨.running, attrsVol⟩) allOkCalls (fun _ => .ok goodNet))
    specCpu2 .started (some ⟨.running, attrsVol⟩) rfl true "started"
    ["apply_container_configs"] [.applyConfig]
    ⟨some "started",
     some (some ({ attrsVol with config := [("volatile.idmap", "x"), ("limits.cpu", "2")] })),
     some "started",
     some ({ attrsVol with config := [("volatile.idmap", "x"), ("limits.cpu", "2")] })⟩
    none
    [ClientCall.putConfig
      ({ attrsVol with config := [("volatile.idmap", "x"), ("limits.cpu", "2")] })]
    rfl

theorem c10_omitted_attributes_no_diff_witness :
    needsToChangeContainerConfig emptySpec attrsVol .architecture = false
    ∧ needsToApplyContainerConfigs emptySpec attrsVol = false
    ∧ "apply_container_configs"
        ∉ (run (mkEnv false false 1 (some ⟨.running, attrsVol⟩) allOkCalls
            (fun _ => .ok goodNet)) emptySpec .started).actionsOf :=
  ⟨c10_omitted_attributes_no_diff.1 emptySpec attrsVol rfl,
   c10_omitted_attributes_no_diff.2.2.2.2.2.1 attrsVol,
   c10_omitted_attributes_no_diff.2.2.2.2.2.2
     (mkEnv false false 1 (some ⟨.running, attrsVol⟩) allOkCalls (fun _ => .ok goodNet))
     .started⟩

end LXD
